import Mathlib

/-!
Verification of the knowledgebase topic-conversion and identity-mapping engine.

This file embeds, as executable Lean definitions, the parts of the repository
that the checked properties are about:

* `titelize` and `CreateMapping` from the `ditaconv` mapping construction
  (title normalization, slug assignment, clash handling, short-title promotion);
* `Slugify` / `ValidateSlug` from `kb/slug.go`, including the full
  `runename` symbol table;
* `ResolveLinkInfo` and `Convert` from `module/dita/convert.go`.

External collaborators (the `fedwiki` slugifier used by `CreateMapping`, the
`ditaconvert` index/streaming machinery, and Go's `unicode` classification
tables) are not part of this repository; they are modelled as explicit
parameters, or, where a concrete behaviour is documented in the specification,
by definitions marked as modelled from the spec.
-/

/-! ## Association lists

Go maps keyed by strings (or by topic identity) are modelled as association
lists with a first-match lookup.  `setk` models Go map assignment
(replace-or-add) and `erasek` models `delete`. -/

def alook {β : Type} (k : String) : List (String × β) → Option β
  | [] => none
  | (k', v) :: rest => if k' = k then some v else alook k rest

def erasek {β : Type} (k : String) : List (String × β) → List (String × β)
  | [] => []
  | (k', v) :: rest => if k' = k then erasek k rest else (k', v) :: erasek k rest

def setk {β : Type} (l : List (String × β)) (k : String) (v : β) : List (String × β) :=
  (k, v) :: erasek k l

def keysNodup {β : Type} (l : List (String × β)) : Prop :=
  (l.map Prod.fst).Nodup

theorem alook_erasek_self {β : Type} (k : String) (l : List (String × β)) :
    alook k (erasek k l) = none := by
  induction l with
  | nil => rfl
  | cons p rest ih =>
    obtain ⟨k', v⟩ := p
    by_cases h : k' = k
    · simp [erasek, h, ih]
    · simp [erasek, alook, h, ih]

theorem alook_erasek_ne {β : Type} {k k' : String} (h : k' ≠ k) (l : List (String × β)) :
    alook k' (erasek k l) = alook k' l := by
  induction l with
  | nil => rfl
  | cons p rest ih =>
    obtain ⟨k₀, v⟩ := p
    by_cases h0 : k₀ = k
    · subst h0
      simp [erasek, alook, Ne.symm h, ih]
    · by_cases h1 : k₀ = k'
      · subst h1
        simp [erasek, alook, h0, h]
      · simp [erasek, alook, h0, h1, ih]


theorem alook_setk_self {β : Type} (l : List (String × β)) (k : String) (v : β) :
    alook k (setk l k v) = some v := by
  simp [setk, alook]

theorem alook_setk_ne {β : Type} {k k' : String} (h : k' ≠ k)
    (l : List (String × β)) (v : β) :
    alook k' (setk l k v) = alook k' l := by
  simp [setk, alook, Ne.symm h, alook_erasek_ne h]

theorem mem_keys_erasek {β : Type} {k x : String} {l : List (String × β)} :
    x ∈ (erasek k l).map Prod.fst → x ∈ l.map Prod.fst := by
  induction l with
  | nil => simp [erasek]
  | cons p rest ih =>
    obtain ⟨k₀, v⟩ := p
    by_cases h0 : k₀ = k
    · simp only [erasek, if_pos h0]
      intro hx
      exact List.mem_cons_of_mem _ (ih hx)
    · simp only [erasek, if_neg h0, List.map_cons, List.mem_cons]
      rintro (hx | hx)
      · exact Or.inl hx
      · exact Or.inr (ih hx)

theorem keysNodup_erasek {β : Type} (k : String) {l : List (String × β)}
    (h : keysNodup l) : keysNodup (erasek k l) := by
  induction l with
  | nil => exact h
  | cons p rest ih =>
    obtain ⟨k₀, v⟩ := p
    simp only [keysNodup, List.map_cons, List.nodup_cons] at h
    by_cases h0 : k₀ = k
    · simpa [keysNodup, erasek, h0] using ih h.2
    · simp only [keysNodup, erasek, if_neg h0, List.map_cons, List.nodup_cons]
      exact ⟨fun hx => h.1 (mem_keys_erasek hx), ih h.2⟩

theorem not_mem_keys_erasek_self {β : Type} (k : String) (l : List (String × β)) :
    k ∉ (erasek k l).map Prod.fst := by
  induction l with
  | nil => simp [erasek]
  | cons p rest ih =>
    obtain ⟨k₀, v⟩ := p
    by_cases h0 : k₀ = k
    · simpa [erasek, h0] using ih
    · simp only [erasek, if_neg h0, List.map_cons, List.mem_cons]
      rintro (hx | hx)
      · exact h0 hx.symm
      · exact ih hx

theorem keysNodup_setk {β : Type} {l : List (String × β)} (k : String) (v : β)
    (h : keysNodup l) : keysNodup (setk l k v) := by
  simp only [keysNodup, setk, List.map_cons, List.nodup_cons]
  exact ⟨not_mem_keys_erasek_self k l, keysNodup_erasek k h⟩

theorem alook_of_mem_nodup {β : Type} {l : List (String × β)} {k : String} {v : β}
    (hnd : keysNodup l) (hm : (k, v) ∈ l) : alook k l = some v := by
  induction l with
  | nil => cases hm
  | cons p rest ih =>
    obtain ⟨k₀, v₀⟩ := p
    simp only [keysNodup, List.map_cons, List.nodup_cons] at hnd
    rcases List.mem_cons.mp hm with h | h
    · rw [Prod.mk.injEq] at h
      obtain ⟨h1, h2⟩ := h
      simp [alook, h1, h2]
    · have hk : k₀ ≠ k := by
        intro he
        subst he
        exact hnd.1 (List.mem_map.mpr ⟨(k₀, v), h, rfl⟩)
      simp [alook, hk, ih hnd.2 h]

theorem mem_of_alook {β : Type} {l : List (String × β)} {k : String} {v : β}
    (h : alook k l = some v) : (k, v) ∈ l := by
  induction l with
  | nil => cases h
  | cons p rest ih =>
    obtain ⟨k₀, v₀⟩ := p
    by_cases h0 : k₀ = k
    · subst h0
      simp only [alook, if_pos, Option.some.injEq] at h
      subst h
      exact List.mem_cons_self _ _
    · simp only [alook, if_neg h0] at h
      exact List.mem_cons_of_mem _ (ih h)

/-! ## Title normalization (`titelize`)

`titelize` in the source applies two Go regexp substitutions:
`rxOr = " ?/ ?"` replaced by `" or "`, then `rxAnd = "(?:[^\^]) ?& ?"`
replaced by `" and "`.  Both are modelled below as left-to-right
leftmost-match, non-overlapping scanners over the rune sequence, which is
exactly RE2's `ReplaceAllString` semantics for these patterns.  Note that the
`rxAnd` pattern consumes the (non-caret) character preceding the ampersand:
`(?:...)` is a non-capturing group, not a lookbehind. -/

def replaceOr : List Char → List Char
  | [] => []
  | ' ' :: '/' :: ' ' :: rest => ' ' :: 'o' :: 'r' :: ' ' :: replaceOr rest
  | ' ' :: '/' :: rest => ' ' :: 'o' :: 'r' :: ' ' :: replaceOr rest
  | '/' :: ' ' :: rest => ' ' :: 'o' :: 'r' :: ' ' :: replaceOr rest
  | '/' :: rest => ' ' :: 'o' :: 'r' :: ' ' :: replaceOr rest
  | c :: rest => c :: replaceOr rest

def replaceAnd : List Char → List Char
  | [] => []
  | '^' :: rest => '^' :: replaceAnd rest
  | _ :: ' ' :: '&' :: ' ' :: rest => ' ' :: 'a' :: 'n' :: 'd' :: ' ' :: replaceAnd rest
  | _ :: ' ' :: '&' :: rest => ' ' :: 'a' :: 'n' :: 'd' :: ' ' :: replaceAnd rest
  | _ :: '&' :: ' ' :: rest => ' ' :: 'a' :: 'n' :: 'd' :: ' ' :: replaceAnd rest
  | _ :: '&' :: rest => ' ' :: 'a' :: 'n' :: 'd' :: ' ' :: replaceAnd rest
  | c :: rest => c :: replaceAnd rest

def titelize (title : String) : String :=
  ⟨replaceAnd (replaceOr title.data)⟩

/-- C2: title normalization. The claim states that every in-text `/` becomes
" or " and every in-text `&` becomes " and " with all other characters left
unchanged, e.g. "Setup & Install" becomes "Setup and Install".  The code's
ampersand regexp `(?:[^\^]) ?& ?` consumes the character before the `&`
(RE2 groups consume, they are not lookbehinds), so the preceding letter is
deleted: `titelize "Setup & Install"` evaluates to "Setu and Install", not
"Setup and Install".  The slash half behaves as claimed. -/
theorem titelize_and_eats_preceding_char :
    titelize "Setup / Install" = "Setup or Install" ∧
    titelize "Setup & Install" = "Setu and Install" ∧
    titelize "Setup & Install" ≠ "Setup and Install" := by
  refine ⟨by decide, by decide, by decide⟩

/-! ## `kb.Slugify` (kb/slug.go)

`Slugify` iterates the runes of its input.  Letter/number classification and
lowercasing come from Go's `unicode` package, an external library; they are
modelled by an explicit `RuneClass` parameter.  The `runename` symbol table is
part of the repository and is transcribed below in full. -/

structure RuneClass where
  isLetter : Char → Bool
  isNumber : Char → Bool
  toLower : Char → Char

def alnum (cls : RuneClass) (r : Char) : Bool :=
  cls.isNumber r || cls.isLetter r

def runenameTable : List (Char × String) := [
   ('\u0021', "excl"),
   ('\u0022', "quot"),
   ('\u0023', "num"),
   ('\u0024', "dollar"),
   ('\u0025', "percnt"),
   ('\u0026', "amp"),
   ('\u0027', "apos"),
   ('\u0028', "lpar"),
   ('\u0029', "rpar"),
   ('\u002A', "ast"),
   ('\u002B', "plus"),
   ('\u002C', "comma"),
   ('\u002E', "period"),
   ('\u002F', "sol"),
   ('\u003A', "colon"),
   ('\u003B', "semi"),
   ('\u003C', "lt"),
   ('\u003D', "equals"),
   ('\u003E', "gt"),
   ('\u003F', "quest"),
   ('\u0040', "commat"),
   ('\u005B', "lsqb"),
   ('\u005C', "bsol"),
   ('\u005D', "rsqb"),
   ('\u005E', "hat"),
   ('\u005F', "lowbar"),
   ('\u0060', "grave"),
   ('\u007B', "lcub"),
   ('\u007C', "vert"),
   ('\u007D', "rcub"),
   ('\u00A1', "iexcl"),
   ('\u00A2', "cent"),
   ('\u00A3', "pound"),
   ('\u00A4', "curren"),
   ('\u00A5', "yen"),
   ('\u00A6', "brvbar"),
   ('\u00A7', "sect"),
   ('\u00A8', "uml"),
   ('\u00A9', "copy"),
   ('\u00AB', "laquo"),
   ('\u00AC', "not"),
   ('\u00AE', "reg"),
   ('\u00AF', "macr"),
   ('\u00B0', "deg"),
   ('\u00B1', "pm"),
   ('\u00B4', "acute"),
   ('\u00B6', "para"),
   ('\u00B7', "middot"),
   ('\u00B8', "cedil"),
   ('\u00BB', "raquo"),
   ('\u00BF', "iquest"),
   ('\u00D7', "times"),
   ('\u00F7', "div"),
   ('\u02D8', "breve"),
   ('\u02D9', "dot"),
   ('\u02DA', "ring"),
   ('\u02DB', "ogon"),
   ('\u02DC', "tilde"),
   ('\u02DD', "dblac"),
   ('\u03F6', "bepsi"),
   ('\u2010', "dash"),
   ('\u2013', "ndash"),
   ('\u2014', "mdash"),
   ('\u2015', "horbar"),
   ('\u2016', "vert"),
   ('\u2018', "lsquo"),
   ('\u2019', "rsquo"),
   ('\u201A', "sbquo"),
   ('\u201C', "ldquo"),
   ('\u201D', "rdquo"),
   ('\u201E', "bdquo"),
   ('\u2020', "dagger"),
   ('\u2021', "dagger"),
   ('\u2022', "bull"),
   ('\u2025', "nldr"),
   ('\u2026', "mldr"),
   ('\u2030', "permil"),
   ('\u2031', "pertenk"),
   ('\u2032', "prime"),
   ('\u2033', "prime"),
   ('\u2034', "tprime"),
   ('\u2035', "bprime"),
   ('\u2039', "lsaquo"),
   ('\u203A', "rsaquo"),
   ('\u203E', "oline"),
   ('\u2041', "caret"),
   ('\u2043', "hybull"),
   ('\u2044', "frasl"),
   ('\u204F', "bsemi"),
   ('\u2057', "qprime"),
   ('\u20AC', "euro"),
   ('\u2105', "incare"),
   ('\u2116', "numero"),
   ('\u2117', "copysr"),
   ('\u2118', "wp"),
   ('\u211E', "rx"),
   ('\u2122', "trade"),
   ('\u2127', "mho"),
   ('\u2129', "iiota"),
   ('\u2190', "larr"),
   ('\u2191', "uarr"),
   ('\u2192', "rarr"),
   ('\u2193', "darr"),
   ('\u2194', "harr"),
   ('\u2195', "varr"),
   ('\u2196', "nwarr"),
   ('\u2197', "nearr"),
   ('\u2198', "searr"),
   ('\u2199', "swarr"),
   ('\u219A', "nlarr"),
   ('\u219B', "nrarr"),
   ('\u219D', "rarrw"),
   ('\u219E', "larr"),
   ('\u219F', "uarr"),
   ('\u21A0', "rarr"),
   ('\u21A1', "darr"),
   ('\u21A2', "larrtl"),
   ('\u21A3', "rarrtl"),
   ('\u21A4', "mapstoleft"),
   ('\u21A5', "mapstoup"),
   ('\u21A6', "map"),
   ('\u21A7', "mapstodown"),
   ('\u21A9', "larrhk"),
   ('\u21AA', "rarrhk"),
   ('\u21AB', "larrlp"),
   ('\u21AC', "rarrlp"),
   ('\u21AD', "harrw"),
   ('\u21AE', "nharr"),
   ('\u21B0', "lsh"),
   ('\u21B1', "rsh"),
   ('\u21B2', "ldsh"),
   ('\u21B3', "rdsh"),
   ('\u21B5', "crarr"),
   ('\u21B6', "cularr"),
   ('\u21B7', "curarr"),
   ('\u21BA', "olarr"),
   ('\u21BB', "orarr"),
   ('\u21BC', "lharu"),
   ('\u21BD', "lhard"),
   ('\u21BE', "uharr"),
   ('\u21BF', "uharl"),
   ('\u21C0', "rharu"),
   ('\u21C1', "rhard"),
   ('\u21C2', "dharr"),
   ('\u21C3', "dharl"),
   ('\u21C4', "rlarr"),
   ('\u21C5', "udarr"),
   ('\u21C6', "lrarr"),
   ('\u21C7', "llarr"),
   ('\u21C8', "uuarr"),
   ('\u21C9', "rrarr"),
   ('\u21CA', "ddarr"),
   ('\u21CB', "lrhar"),
   ('\u21CC', "rlhar"),
   ('\u21CD', "nlarr"),
   ('\u21CE', "nharr"),
   ('\u21CF', "nrarr"),
   ('\u21D0', "larr"),
   ('\u21D1', "uarr"),
   ('\u21D2', "rarr"),
   ('\u21D3', "darr"),
   ('\u21D4', "iff"),
   ('\u21D5', "varr"),
   ('\u21D6', "nwarr"),
   ('\u21D7', "nearr"),
   ('\u21D8', "searr"),
   ('\u21D9', "swarr"),
   ('\u21DA', "laarr"),
   ('\u21DB', "raarr"),
   ('\u21DD', "zigrarr"),
   ('\u21E4', "larrb"),
   ('\u21E5', "rarrb"),
   ('\u21F5', "duarr"),
   ('\u21FD', "loarr"),
   ('\u21FE', "roarr"),
   ('\u21FF', "hoarr"),
   ('\u2200', "forall"),
   ('\u2201', "comp"),
   ('\u2202', "part"),
   ('\u2203', "exist"),
   ('\u2204', "nexist"),
   ('\u2205', "empty"),
   ('\u2207', "del"),
   ('\u2208', "in"),
   ('\u2209', "notin"),
   ('\u220B', "ni"),
   ('\u220C', "notni"),
   ('\u220F', "prod"),
   ('\u2210', "coprod"),
   ('\u2211', "sum"),
   ('\u2212', "minus"),
   ('\u2213', "mp"),
   ('\u2214', "plusdo"),
   ('\u2216', "setmn"),
   ('\u2217', "lowast"),
   ('\u2218', "compfn"),
   ('\u221A', "sqrt"),
   ('\u221D', "prop"),
   ('\u221E', "infin"),
   ('\u221F', "angrt"),
   ('\u2220', "ang"),
   ('\u2221', "angmsd"),
   ('\u2222', "angsph"),
   ('\u2223', "mid"),
   ('\u2224', "nmid"),
   ('\u2225', "par"),
   ('\u2226', "npar"),
   ('\u2227', "and"),
   ('\u2228', "or"),
   ('\u2229', "cap"),
   ('\u222A', "cup"),
   ('\u222B', "int"),
   ('\u222C', "int"),
   ('\u222D', "tint"),
   ('\u222E', "oint"),
   ('\u222F', "conint"),
   ('\u2230', "cconint"),
   ('\u2231', "cwint"),
   ('\u2232', "cwconint"),
   ('\u2233', "awconint"),
   ('\u2234', "there4"),
   ('\u2235', "becaus"),
   ('\u2236', "ratio"),
   ('\u2237', "colon"),
   ('\u2238', "minusd"),
   ('\u223A', "mddot"),
   ('\u223B', "homtht"),
   ('\u223C', "sim"),
   ('\u223D', "bsim"),
   ('\u223E', "ac"),
   ('\u223F', "acd"),
   ('\u2240', "wr"),
   ('\u2241', "nsim"),
   ('\u2242', "esim"),
   ('\u2243', "sime"),
   ('\u2244', "nsime"),
   ('\u2245', "cong"),
   ('\u2246', "simne"),
   ('\u2247', "ncong"),
   ('\u2248', "ap"),
   ('\u2249', "nap"),
   ('\u224A', "ape"),
   ('\u224B', "apid"),
   ('\u224C', "bcong"),
   ('\u224D', "cupcap"),
   ('\u224E', "bump"),
   ('\u224F', "bumpe"),
   ('\u2250', "doteq"),
   ('\u2251', "edot"),
   ('\u2252', "efdot"),
   ('\u2253', "erdot"),
   ('\u2254', "assign"),
   ('\u2255', "ecolon"),
   ('\u2256', "ecir"),
   ('\u2257', "cire"),
   ('\u2259', "wedgeq"),
   ('\u225A', "veeeq"),
   ('\u225C', "trie"),
   ('\u225F', "equest"),
   ('\u2260', "ne"),
   ('\u2261', "equiv"),
   ('\u2262', "nequiv"),
   ('\u2264', "le"),
   ('\u2265', "ge"),
   ('\u2266', "le"),
   ('\u2267', "ge"),
   ('\u2268', "lne"),
   ('\u2269', "gne"),
   ('\u226A', "lt"),
   ('\u226B', "gt"),
   ('\u226C', "twixt"),
   ('\u226D', "notcupcap"),
   ('\u226E', "nlt"),
   ('\u226F', "ngt"),
   ('\u2270', "nle"),
   ('\u2271', "nge"),
   ('\u2272', "lsim"),
   ('\u2273', "gsim"),
   ('\u2274', "nlsim"),
   ('\u2275', "ngsim"),
   ('\u2276', "lg"),
   ('\u2277', "gl"),
   ('\u2278', "ntlg"),
   ('\u2279', "ntgl"),
   ('\u227A', "pr"),
   ('\u227B', "sc"),
   ('\u227C', "prcue"),
   ('\u227D', "sccue"),
   ('\u227E', "prsim"),
   ('\u227F', "scsim"),
   ('\u2280', "npr"),
   ('\u2281', "nsc"),
   ('\u2282', "sub"),
   ('\u2283', "sup"),
   ('\u2284', "nsub"),
   ('\u2285', "nsup"),
   ('\u2286', "sube"),
   ('\u2287', "supe"),
   ('\u2288', "nsube"),
   ('\u2289', "nsupe"),
   ('\u228A', "subne"),
   ('\u228B', "supne"),
   ('\u228D', "cupdot"),
   ('\u228E', "uplus"),
   ('\u228F', "sqsub"),
   ('\u2290', "sqsup"),
   ('\u2291', "sqsube"),
   ('\u2292', "sqsupe"),
   ('\u2293', "sqcap"),
   ('\u2294', "sqcup"),
   ('\u2295', "oplus"),
   ('\u2296', "ominus"),
   ('\u2297', "otimes"),
   ('\u2298', "osol"),
   ('\u2299', "odot"),
   ('\u229A', "ocir"),
   ('\u229B', "oast"),
   ('\u229D', "odash"),
   ('\u229E', "plusb"),
   ('\u229F', "minusb"),
   ('\u22A0', "timesb"),
   ('\u22A1', "sdotb"),
   ('\u22A2', "vdash"),
   ('\u22A3', "dashv"),
   ('\u22A4', "top"),
   ('\u22A5', "bot"),
   ('\u22A7', "models"),
   ('\u22A8', "vdash"),
   ('\u22A9', "vdash"),
   ('\u22AA', "vvdash"),
   ('\u22AB', "vdash"),
   ('\u22AC', "nvdash"),
   ('\u22AD', "nvdash"),
   ('\u22AE', "nvdash"),
   ('\u22AF', "nvdash"),
   ('\u22B0', "prurel"),
   ('\u22B2', "vltri"),
   ('\u22B3', "vrtri"),
   ('\u22B4', "ltrie"),
   ('\u22B5', "rtrie"),
   ('\u22B6', "origof"),
   ('\u22B7', "imof"),
   ('\u22B8', "mumap"),
   ('\u22B9', "hercon"),
   ('\u22BA', "intcal"),
   ('\u22BB', "veebar"),
   ('\u22BD', "barvee"),
   ('\u22BE', "angrtvb"),
   ('\u22BF', "lrtri"),
   ('\u22C0', "wedge"),
   ('\u22C1', "vee"),
   ('\u22C2', "xcap"),
   ('\u22C3', "xcup"),
   ('\u22C4', "diam"),
   ('\u22C5', "sdot"),
   ('\u22C6', "star"),
   ('\u22C7', "divonx"),
   ('\u22C8', "bowtie"),
   ('\u22C9', "ltimes"),
   ('\u22CA', "rtimes"),
   ('\u22CB', "lthree"),
   ('\u22CC', "rthree"),
   ('\u22CD', "bsime"),
   ('\u22CE', "cuvee"),
   ('\u22CF', "cuwed"),
   ('\u22D0', "sub"),
   ('\u22D1', "sup"),
   ('\u22D2', "cap"),
   ('\u22D3', "cup"),
   ('\u22D4', "fork"),
   ('\u22D5', "epar"),
   ('\u22D6', "ltdot"),
   ('\u22D7', "gtdot"),
   ('\u22D8', "ll"),
   ('\u22D9', "gg"),
   ('\u22DA', "leg"),
   ('\u22DB', "gel"),
   ('\u22DE', "cuepr"),
   ('\u22DF', "cuesc"),
   ('\u22E0', "nprcue"),
   ('\u22E1', "nsccue"),
   ('\u22E2', "nsqsube"),
   ('\u22E3', "nsqsupe"),
   ('\u22E6', "lnsim"),
   ('\u22E7', "gnsim"),
   ('\u22E8', "prnsim"),
   ('\u22E9', "scnsim"),
   ('\u22EA', "nltri"),
   ('\u22EB', "nrtri"),
   ('\u22EC', "nltrie"),
   ('\u22ED', "nrtrie"),
   ('\u22EE', "vellip"),
   ('\u22EF', "ctdot"),
   ('\u22F0', "utdot"),
   ('\u22F1', "dtdot"),
   ('\u22F2', "disin"),
   ('\u22F3', "isinsv"),
   ('\u22F4', "isins"),
   ('\u22F5', "isindot"),
   ('\u22F6', "notinvc"),
   ('\u22F7', "notinvb"),
   ('\u22F9', "isine"),
   ('\u22FA', "nisd"),
   ('\u22FB', "xnis"),
   ('\u22FC', "nis"),
   ('\u22FD', "notnivc"),
   ('\u22FE', "notnivb"),
   ('\u2305', "barwed"),
   ('\u2306', "barwed"),
   ('\u2308', "lceil"),
   ('\u2309', "rceil"),
   ('\u230A', "lfloor"),
   ('\u230B', "rfloor"),
   ('\u230C', "drcrop"),
   ('\u230D', "dlcrop"),
   ('\u230E', "urcrop"),
   ('\u230F', "ulcrop"),
   ('\u2310', "bnot"),
   ('\u2312', "profline"),
   ('\u2313', "profsurf"),
   ('\u2315', "telrec"),
   ('\u2316', "target"),
   ('\u231C', "ulcorn"),
   ('\u231D', "urcorn"),
   ('\u231E', "dlcorn"),
   ('\u231F', "drcorn"),
   ('\u2322', "frown"),
   ('\u2323', "smile"),
   ('\u232D', "cylcty"),
   ('\u232E', "profalar"),
   ('\u2336', "topbot"),
   ('\u233D', "ovbar"),
   ('\u233F', "solbar"),
   ('\u237C', "angzarr"),
   ('\u23B0', "lmoust"),
   ('\u23B1', "rmoust"),
   ('\u23B4', "tbrk"),
   ('\u23B5', "bbrk"),
   ('\u23B6', "bbrktbrk"),
   ('\u23DC', "overparenthesis"),
   ('\u23DD', "underparenthesis"),
   ('\u23DE', "overbrace"),
   ('\u23DF', "underbrace"),
   ('\u23E2', "trpezium"),
   ('\u23E7', "elinters"),
   ('\u2423', "blank"),
   ('\u24C8', "os"),
   ('\u2500', "boxh"),
   ('\u2502', "boxv"),
   ('\u250C', "boxdr"),
   ('\u2510', "boxdl"),
   ('\u2514', "boxur"),
   ('\u2518', "boxul"),
   ('\u251C', "boxvr"),
   ('\u2524', "boxvl"),
   ('\u252C', "boxhd"),
   ('\u2534', "boxhu"),
   ('\u253C', "boxvh"),
   ('\u2550', "boxh"),
   ('\u2551', "boxv"),
   ('\u2552', "boxdr"),
   ('\u2553', "boxdr"),
   ('\u2554', "boxdr"),
   ('\u2555', "boxdl"),
   ('\u2556', "boxdl"),
   ('\u2557', "boxdl"),
   ('\u2558', "boxur"),
   ('\u2559', "boxur"),
   ('\u255A', "boxur"),
   ('\u255B', "boxul"),
   ('\u255C', "boxul"),
   ('\u255D', "boxul"),
   ('\u255E', "boxvr"),
   ('\u255F', "boxvr"),
   ('\u2560', "boxvr"),
   ('\u2561', "boxvl"),
   ('\u2562', "boxvl"),
   ('\u2563', "boxvl"),
   ('\u2564', "boxhd"),
   ('\u2565', "boxhd"),
   ('\u2566', "boxhd"),
   ('\u2567', "boxhu"),
   ('\u2568', "boxhu"),
   ('\u2569', "boxhu"),
   ('\u256A', "boxvh"),
   ('\u256B', "boxvh"),
   ('\u256C', "boxvh"),
   ('\u2580', "uhblk"),
   ('\u2584', "lhblk"),
   ('\u2588', "block"),
   ('\u2591', "blk14"),
   ('\u2592', "blk12"),
   ('\u2593', "blk34"),
   ('\u25A1', "squ"),
   ('\u25AA', "squf"),
   ('\u25AB', "emptyverysmallsquare"),
   ('\u25AD', "rect"),
   ('\u25AE', "marker"),
   ('\u25B1', "fltns"),
   ('\u25B3', "xutri"),
   ('\u25B4', "utrif"),
   ('\u25B5', "utri"),
   ('\u25B8', "rtrif"),
   ('\u25B9', "rtri"),
   ('\u25BD', "xdtri"),
   ('\u25BE', "dtrif"),
   ('\u25BF', "dtri"),
   ('\u25C2', "ltrif"),
   ('\u25C3', "ltri"),
   ('\u25CA', "loz"),
   ('\u25CB', "cir"),
   ('\u25EC', "tridot"),
   ('\u25EF', "xcirc"),
   ('\u25F8', "ultri"),
   ('\u25F9', "urtri"),
   ('\u25FA', "lltri"),
   ('\u25FB', "emptysmallsquare"),
   ('\u25FC', "filledsmallsquare"),
   ('\u2605', "starf"),
   ('\u2606', "star"),
   ('\u260E', "phone"),
   ('\u2640', "female"),
   ('\u2642', "male"),
   ('\u2660', "spades"),
   ('\u2663', "clubs"),
   ('\u2665', "hearts"),
   ('\u2666', "diams"),
   ('\u266A', "sung"),
   ('\u266D', "flat"),
   ('\u266E', "natur"),
   ('\u266F', "sharp"),
   ('\u2713', "check"),
   ('\u2717', "cross"),
   ('\u2720', "malt"),
   ('\u2736', "sext"),
   ('\u2758', "verticalseparator"),
   ('\u2772', "lbbrk"),
   ('\u2773', "rbbrk"),
   ('\u27C8', "bsolhsub"),
   ('\u27C9', "suphsol"),
   ('\u27E6', "lobrk"),
   ('\u27E7', "robrk"),
   ('\u27E8', "lang"),
   ('\u27E9', "rang"),
   ('\u27EA', "lang"),
   ('\u27EB', "rang"),
   ('\u27EC', "loang"),
   ('\u27ED', "roang"),
   ('\u27F5', "xlarr"),
   ('\u27F6', "xrarr"),
   ('\u27F7', "xharr"),
   ('\u27F8', "xlarr"),
   ('\u27F9', "xrarr"),
   ('\u27FA', "xharr"),
   ('\u27FC', "xmap"),
   ('\u27FF', "dzigrarr"),
   ('\u2902', "nvlarr"),
   ('\u2903', "nvrarr"),
   ('\u2904', "nvharr"),
   ('\u2905', "map"),
   ('\u290C', "lbarr"),
   ('\u290D', "rbarr"),
   ('\u290E', "lbarr"),
   ('\u290F', "rbarr"),
   ('\u2910', "rbarr"),
   ('\u2911', "ddotrahd"),
   ('\u2912', "uparrowbar"),
   ('\u2913', "downarrowbar"),
   ('\u2916', "rarrtl"),
   ('\u2919', "latail"),
   ('\u291A', "ratail"),
   ('\u291B', "latail"),
   ('\u291C', "ratail"),
   ('\u291D', "larrfs"),
   ('\u291E', "rarrfs"),
   ('\u291F', "larrbfs"),
   ('\u2920', "rarrbfs"),
   ('\u2923', "nwarhk"),
   ('\u2924', "nearhk"),
   ('\u2925', "searhk"),
   ('\u2926', "swarhk"),
   ('\u2927', "nwnear"),
   ('\u2928', "toea"),
   ('\u2929', "tosa"),
   ('\u292A', "swnwar"),
   ('\u2933', "rarrc"),
   ('\u2935', "cudarrr"),
   ('\u2936', "ldca"),
   ('\u2937', "rdca"),
   ('\u2938', "cudarrl"),
   ('\u2939', "larrpl"),
   ('\u293C', "curarrm"),
   ('\u293D', "cularrp"),
   ('\u2945', "rarrpl"),
   ('\u2948', "harrcir"),
   ('\u2949', "uarrocir"),
   ('\u294A', "lurdshar"),
   ('\u294B', "ldrushar"),
   ('\u294E', "leftrightvector"),
   ('\u294F', "rightupdownvector"),
   ('\u2950', "downleftrightvector"),
   ('\u2951', "leftupdownvector"),
   ('\u2952', "leftvectorbar"),
   ('\u2953', "rightvectorbar"),
   ('\u2954', "rightupvectorbar"),
   ('\u2955', "rightdownvectorbar"),
   ('\u2956', "downleftvectorbar"),
   ('\u2957', "downrightvectorbar"),
   ('\u2958', "leftupvectorbar"),
   ('\u2959', "leftdownvectorbar"),
   ('\u295A', "leftteevector"),
   ('\u295B', "rightteevector"),
   ('\u295C', "rightupteevector"),
   ('\u295D', "rightdownteevector"),
   ('\u295E', "downleftteevector"),
   ('\u295F', "downrightteevector"),
   ('\u2960', "leftupteevector"),
   ('\u2961', "leftdownteevector"),
   ('\u2962', "lhar"),
   ('\u2963', "uhar"),
   ('\u2964', "rhar"),
   ('\u2965', "dhar"),
   ('\u2966', "luruhar"),
   ('\u2967', "ldrdhar"),
   ('\u2968', "ruluhar"),
   ('\u2969', "rdldhar"),
   ('\u296A', "lharul"),
   ('\u296B', "llhard"),
   ('\u296C', "rharul"),
   ('\u296D', "lrhard"),
   ('\u296E', "udhar"),
   ('\u296F', "duhar"),
   ('\u2970', "roundimplies"),
   ('\u2971', "erarr"),
   ('\u2972', "simrarr"),
   ('\u2973', "larrsim"),
   ('\u2974', "rarrsim"),
   ('\u2975', "rarrap"),
   ('\u2976', "ltlarr"),
   ('\u2978', "gtrarr"),
   ('\u2979', "subrarr"),
   ('\u297B', "suplarr"),
   ('\u297C', "lfisht"),
   ('\u297D', "rfisht"),
   ('\u297E', "ufisht"),
   ('\u297F', "dfisht"),
   ('\u2985', "lopar"),
   ('\u2986', "ropar"),
   ('\u298B', "lbrke"),
   ('\u298C', "rbrke"),
   ('\u298D', "lbrkslu"),
   ('\u298E', "rbrksld"),
   ('\u298F', "lbrksld"),
   ('\u2990', "rbrkslu"),
   ('\u2991', "langd"),
   ('\u2992', "rangd"),
   ('\u2993', "lparlt"),
   ('\u2994', "rpargt"),
   ('\u2995', "gtlpar"),
   ('\u2996', "ltrpar"),
   ('\u299A', "vzigzag"),
   ('\u299C', "vangrt"),
   ('\u299D', "angrtvbd"),
   ('\u29A4', "ange"),
   ('\u29A5', "range"),
   ('\u29A6', "dwangle"),
   ('\u29A7', "uwangle"),
   ('\u29A8', "angmsdaa"),
   ('\u29A9', "angmsdab"),
   ('\u29AA', "angmsdac"),
   ('\u29AB', "angmsdad"),
   ('\u29AC', "angmsdae"),
   ('\u29AD', "angmsdaf"),
   ('\u29AE', "angmsdag"),
   ('\u29AF', "angmsdah"),
   ('\u29B0', "bemptyv"),
   ('\u29B1', "demptyv"),
   ('\u29B2', "cemptyv"),
   ('\u29B3', "raemptyv"),
   ('\u29B4', "laemptyv"),
   ('\u29B5', "ohbar"),
   ('\u29B6', "omid"),
   ('\u29B7', "opar"),
   ('\u29B9', "operp"),
   ('\u29BB', "olcross"),
   ('\u29BC', "odsold"),
   ('\u29BE', "olcir"),
   ('\u29BF', "ofcir"),
   ('\u29C0', "olt"),
   ('\u29C1', "ogt"),
   ('\u29C2', "cirscir"),
   ('\u29C3', "cire"),
   ('\u29C4', "solb"),
   ('\u29C5', "bsolb"),
   ('\u29C9', "boxbox"),
   ('\u29CD', "trisb"),
   ('\u29CE', "rtriltri"),
   ('\u29CF', "lefttrianglebar"),
   ('\u29D0', "righttrianglebar"),
   ('\u29DC', "iinfin"),
   ('\u29DD', "infintie"),
   ('\u29DE', "nvinfin"),
   ('\u29E3', "eparsl"),
   ('\u29E4', "smeparsl"),
   ('\u29E5', "eqvparsl"),
   ('\u29EB', "lozf"),
   ('\u29F4', "ruledelayed"),
   ('\u29F6', "dsol"),
   ('\u2A00', "xodot"),
   ('\u2A01', "xoplus"),
   ('\u2A02', "xotime"),
   ('\u2A04', "xuplus"),
   ('\u2A06', "xsqcup"),
   ('\u2A0C', "qint"),
   ('\u2A0D', "fpartint"),
   ('\u2A10', "cirfnint"),
   ('\u2A11', "awint"),
   ('\u2A12', "rppolint"),
   ('\u2A13', "scpolint"),
   ('\u2A14', "npolint"),
   ('\u2A15', "pointint"),
   ('\u2A16', "quatint"),
   ('\u2A17', "intlarhk"),
   ('\u2A22', "pluscir"),
   ('\u2A23', "plusacir"),
   ('\u2A24', "simplus"),
   ('\u2A25', "plusdu"),
   ('\u2A26', "plussim"),
   ('\u2A27', "plustwo"),
   ('\u2A29', "mcomma"),
   ('\u2A2A', "minusdu"),
   ('\u2A2D', "loplus"),
   ('\u2A2E', "roplus"),
   ('\u2A2F', "cross"),
   ('\u2A30', "timesd"),
   ('\u2A31', "timesbar"),
   ('\u2A33', "smashp"),
   ('\u2A34', "lotimes"),
   ('\u2A35', "rotimes"),
   ('\u2A36', "otimesas"),
   ('\u2A37', "otimes"),
   ('\u2A38', "odiv"),
   ('\u2A39', "triplus"),
   ('\u2A3A', "triminus"),
   ('\u2A3B', "tritime"),
   ('\u2A3C', "iprod"),
   ('\u2A3F', "amalg"),
   ('\u2A40', "capdot"),
   ('\u2A42', "ncup"),
   ('\u2A43', "ncap"),
   ('\u2A44', "capand"),
   ('\u2A45', "cupor"),
   ('\u2A46', "cupcap"),
   ('\u2A47', "capcup"),
   ('\u2A48', "cupbrcap"),
   ('\u2A49', "capbrcup"),
   ('\u2A4A', "cupcup"),
   ('\u2A4B', "capcap"),
   ('\u2A4C', "ccups"),
   ('\u2A4D', "ccaps"),
   ('\u2A50', "ccupssm"),
   ('\u2A53', "and"),
   ('\u2A54', "or"),
   ('\u2A55', "andand"),
   ('\u2A56', "oror"),
   ('\u2A57', "orslope"),
   ('\u2A58', "andslope"),
   ('\u2A5A', "andv"),
   ('\u2A5B', "orv"),
   ('\u2A5C', "andd"),
   ('\u2A5D', "ord"),
   ('\u2A5F', "wedbar"),
   ('\u2A66', "sdote"),
   ('\u2A6A', "simdot"),
   ('\u2A6D', "congdot"),
   ('\u2A6E', "easter"),
   ('\u2A6F', "apacir"),
   ('\u2A70', "ape"),
   ('\u2A71', "eplus"),
   ('\u2A72', "pluse"),
   ('\u2A73', "esim"),
   ('\u2A74', "colone"),
   ('\u2A75', "equal"),
   ('\u2A77', "eddot"),
   ('\u2A78', "equivdd"),
   ('\u2A79', "ltcir"),
   ('\u2A7A', "gtcir"),
   ('\u2A7B', "ltquest"),
   ('\u2A7C', "gtquest"),
   ('\u2A7D', "les"),
   ('\u2A7E', "ges"),
   ('\u2A7F', "lesdot"),
   ('\u2A80', "gesdot"),
   ('\u2A81', "lesdoto"),
   ('\u2A82', "gesdoto"),
   ('\u2A83', "lesdotor"),
   ('\u2A84', "gesdotol"),
   ('\u2A85', "lap"),
   ('\u2A86', "gap"),
   ('\u2A87', "lne"),
   ('\u2A88', "gne"),
   ('\u2A89', "lnap"),
   ('\u2A8A', "gnap"),
   ('\u2A8B', "leg"),
   ('\u2A8C', "gel"),
   ('\u2A8D', "lsime"),
   ('\u2A8E', "gsime"),
   ('\u2A8F', "lsimg"),
   ('\u2A90', "gsiml"),
   ('\u2A91', "lge"),
   ('\u2A92', "gle"),
   ('\u2A93', "lesges"),
   ('\u2A94', "gesles"),
   ('\u2A95', "els"),
   ('\u2A96', "egs"),
   ('\u2A97', "elsdot"),
   ('\u2A98', "egsdot"),
   ('\u2A99', "el"),
   ('\u2A9A', "eg"),
   ('\u2A9D', "siml"),
   ('\u2A9E', "simg"),
   ('\u2A9F', "simle"),
   ('\u2AA0', "simge"),
   ('\u2AA1', "lessless"),
   ('\u2AA2', "greatergreater"),
   ('\u2AA4', "glj"),
   ('\u2AA5', "gla"),
   ('\u2AA6', "ltcc"),
   ('\u2AA7', "gtcc"),
   ('\u2AA8', "lescc"),
   ('\u2AA9', "gescc"),
   ('\u2AAA', "smt"),
   ('\u2AAB', "lat"),
   ('\u2AAC', "smte"),
   ('\u2AAD', "late"),
   ('\u2AAE', "bumpe"),
   ('\u2AAF', "pre"),
   ('\u2AB0', "sce"),
   ('\u2AB3', "pre"),
   ('\u2AB4', "sce"),
   ('\u2AB5', "prne"),
   ('\u2AB6', "scne"),
   ('\u2AB7', "prap"),
   ('\u2AB8', "scap"),
   ('\u2AB9', "prnap"),
   ('\u2ABA', "scnap"),
   ('\u2ABB', "pr"),
   ('\u2ABC', "sc"),
   ('\u2ABD', "subdot"),
   ('\u2ABE', "supdot"),
   ('\u2ABF', "subplus"),
   ('\u2AC0', "supplus"),
   ('\u2AC1', "submult"),
   ('\u2AC2', "supmult"),
   ('\u2AC3', "subedot"),
   ('\u2AC4', "supedot"),
   ('\u2AC5', "sube"),
   ('\u2AC6', "supe"),
   ('\u2AC7', "subsim"),
   ('\u2AC8', "supsim"),
   ('\u2ACB', "subne"),
   ('\u2ACC', "supne"),
   ('\u2ACF', "csub"),
   ('\u2AD0', "csup"),
   ('\u2AD1', "csube"),
   ('\u2AD2', "csupe"),
   ('\u2AD3', "subsup"),
   ('\u2AD4', "supsub"),
   ('\u2AD5', "subsub"),
   ('\u2AD6', "supsup"),
   ('\u2AD7', "suphsub"),
   ('\u2AD8', "supdsub"),
   ('\u2AD9', "forkv"),
   ('\u2ADA', "topfork"),
   ('\u2ADB', "mlcp"),
   ('\u2AE4', "dashv"),
   ('\u2AE6', "vdashl"),
   ('\u2AE7', "barv"),
   ('\u2AE8', "vbar"),
   ('\u2AE9', "vbarv"),
   ('\u2AEB', "vbar"),
   ('\u2AEC', "not"),
   ('\u2AED', "bnot"),
   ('\u2AEE', "rnmid"),
   ('\u2AEF', "cirmid"),
   ('\u2AF0', "midcir"),
   ('\u2AF1', "topcir"),
   ('\u2AF2', "nhpar"),
   ('\u2AF3', "parsim"),
   ('\u2AFD', "parsl")
 ]

def clook (r : Char) : List (Char × String) → Option String
  | [] => none
  | (r', n) :: rest => if r' = r then some n else clook r rest

def runename (r : Char) : Option String :=
  clook r runenameTable

def slugChars (cls : RuneClass) : Bool → Bool → List Char → List Char
  | _, _, [] => []
  | cutdash, emitdash, r :: rest =>
    if alnum cls r then
      (if emitdash && !cutdash then ['-'] else []) ++
        (cls.toLower r :: slugChars cls false false rest)
    else if r = '/' || r = '=' then
      r :: slugChars cls true false rest
    else if r = '-' || r = ',' || r = '.' || r = ' ' || r = '_' then
      slugChars cls cutdash true rest
    else
      match runename r with
      | some name =>
        (if !cutdash then ['-'] else []) ++ (name.data ++ slugChars cls false true rest)
      | none => slugChars cls cutdash true rest

def Slugify (cls : RuneClass) (s : List Char) : List Char :=
  let slug := slugChars cls true false s
  if slug.isEmpty then ['-'] else slug

inductive SlugError
  | empty
  | modified
deriving DecidableEq

def ValidateSlug (cls : RuneClass) (slug : List Char) : Option SlugError :=
  if slug.length = 0 then some SlugError.empty
  else if slug ≠ Slugify cls slug then some SlugError.modified
  else none

def tableOK (cls : RuneClass) : Bool :=
  runenameTable.all fun p =>
    !p.2.data.isEmpty &&
      p.2.data.all fun ch => alnum cls ch && (cls.toLower ch == ch)

theorem slugChars_cons (cls : RuneClass) (c e : Bool) (r : Char) (rest : List Char) :
    slugChars cls c e (r :: rest) =
      if alnum cls r then
        (if e && !c then ['-'] else []) ++ (cls.toLower r :: slugChars cls false false rest)
      else if r = '/' || r = '=' then
        r :: slugChars cls true false rest
      else if r = '-' || r = ',' || r = '.' || r = ' ' || r = '_' then
        slugChars cls c true rest
      else
        match runename r with
        | some name => (if !c then ['-'] else []) ++ (name.data ++ slugChars cls false true rest)
        | none => slugChars cls c true rest := rfl

theorem clook_mem {r : Char} {n : String} :
    ∀ {l : List (Char × String)}, clook r l = some n → (r, n) ∈ l := by
  intro l
  induction l with
  | nil => intro h; cases h
  | cons p rest ih =>
    obtain ⟨r₀, n₀⟩ := p
    intro h
    by_cases h0 : r₀ = r
    · subst h0
      simp only [clook, if_pos, Option.some.injEq] at h
      subst h
      exact List.mem_cons_self _ _
    · simp only [clook, if_neg h0] at h
      exact List.mem_cons_of_mem _ (ih h)

theorem table_props (cls : RuneClass) (HT : tableOK cls = true)
    {r : Char} {name : String} (h : runename r = some name) :
    name.data ≠ [] ∧ ∀ ch ∈ name.data, alnum cls ch = true ∧ cls.toLower ch = ch := by
  have hmem : (r, name) ∈ runenameTable := clook_mem h
  have hall := (List.all_eq_true.mp HT) _ hmem
  simp only [Bool.and_eq_true, List.all_eq_true] at hall
  refine ⟨?_, fun ch hch => ?_⟩
  · intro hempty
    rw [← List.isEmpty_iff] at hempty
    simp [hempty] at hall
  · have := hall.2 ch hch
    simp only [Bool.and_eq_true, beq_iff_eq] at this
    exact this

theorem nameRun (cls : RuneClass) :
    ∀ (l tail : List Char), (∀ ch ∈ l, alnum cls ch = true ∧ cls.toLower ch = ch) →
      slugChars cls false false (l ++ tail) = l ++ slugChars cls false false tail := by
  intro l
  induction l with
  | nil => intro tail _; rfl
  | cons ch l' ih =>
    intro tail hch
    have h1 := hch ch (List.mem_cons_self _ _)
    rw [List.cons_append, slugChars_cons, if_pos h1.1]
    simp only [Bool.and_false, Bool.false_and, if_neg (by simp : ¬(false = true)),
      List.nil_append, h1.2]
    rw [ih tail fun c hc => hch c (List.mem_cons_of_mem _ hc)]
    simp


theorem slug_rerun (cls : RuneClass)
    (H0 : alnum cls '-' = false)
    (Hlow : ∀ r, alnum cls r = true →
      alnum cls (cls.toLower r) = true ∧ cls.toLower (cls.toLower r) = cls.toLower r)
    (HT : tableOK cls = true) :
    ∀ (s : List Char) (c e e' : Bool), (e' = true → e = true) →
      slugChars cls c e' (slugChars cls c e s) = slugChars cls c e s := by
  intro s
  induction s with
  | nil => intro c e e' _; rfl
  | cons r rest ih =>
    intro c e e' himp
    have hih00 : slugChars cls false false (slugChars cls false false rest) =
        slugChars cls false false rest := ih false false false (by simp)
    have hih01 : slugChars cls false false (slugChars cls false true rest) =
        slugChars cls false true rest := ih false true false (by simp)
    by_cases halnum : alnum cls r = true
    · have hlow := Hlow r halnum
      by_cases hd : (e && !c) = true
      · obtain ⟨he, hc⟩ : e = true ∧ c = false := by
          cases e <;> cases c <;> simp_all
        subst he hc
        simp [slugChars_cons, halnum, H0, hlow.1, hlow.2, hih00]
      · have hnd : (e' && !c) = false := by
          cases e' <;> cases c <;> simp_all
        simp [slugChars_cons, halnum, hd, hnd, hlow.1, hlow.2, hih00]
    · have halnum' : alnum cls r = false := by simpa using halnum
      by_cases hslash : (r = '/' || r = '=') = true
      · have hih10 : slugChars cls true false (slugChars cls true false rest) =
            slugChars cls true false rest := ih true false false (by simp)
        simp [slugChars_cons, halnum', hslash, hih10]
      · have hslash' : (r = '/' || r = '=') = false := by simpa using hslash
        by_cases hdash : (r = '-' || r = ',' || r = '.' || r = ' ' || r = '_') = true
        · rw [slugChars_cons, if_neg halnum, if_neg (by simp [hslash']), if_pos hdash]
          exact ih c true e' (fun _ => rfl)
        · have hdash' : (r = '-' || r = ',' || r = '.' || r = ' ' || r = '_') = false := by
            simpa using hdash
          cases hname : runename r with
          | none =>
            rw [slugChars_cons, if_neg halnum, if_neg (by simp [hslash']),
              if_neg (by simp [hdash'])]
            simp only [hname]
            exact ih c true e' (fun _ => rfl)
          | some name =>
            obtain ⟨hne, hch⟩ := table_props cls HT hname
            obtain ⟨n1, ns, hdata⟩ : ∃ n1 ns, name.data = n1 :: ns := by
              cases hd2 : name.data with
              | nil => exact absurd hd2 hne
              | cons a b => exact ⟨a, b, rfl⟩
            have hmem1 : n1 ∈ name.data := by
              rw [hdata]
              exact List.mem_cons_self _ _
            have hn1 := hch n1 hmem1
            have hns : ∀ ch ∈ ns, alnum cls ch = true ∧ cls.toLower ch = ch := by
              intro ch hcm
              refine hch ch ?_
              rw [hdata]
              exact List.mem_cons_of_mem _ hcm
            have hrun : slugChars cls false false (ns ++ slugChars cls false true rest) =
                ns ++ slugChars cls false false (slugChars cls false true rest) :=
              nameRun cls ns _ hns
            cases c with
            | true =>
              simp [slugChars_cons, halnum', hslash', hdash', hname, hdata,
                hn1.1, hn1.2, hrun, hih01]
            | false =>
              simp [slugChars_cons, halnum', hslash', hdash', hname, hdata,
                H0, hn1.1, hn1.2, hrun, hih01]

theorem slugChars_nil (cls : RuneClass) (c e : Bool) : slugChars cls c e [] = [] := rfl

/-- C9: `Slugify` is idempotent on its own output — for every rune sequence
`s`, `Slugify (Slugify s) = Slugify s` — and consequently every slug produced
by `Slugify` passes `ValidateSlug`'s round-trip check.  Stated for any
`RuneClass` whose lowercasing is idempotent and preserves the letter/number
classes, whose dash rune is not a letter/number, and for which every
`runename` table entry is a nonempty lowercase-fixed alphanumeric string;
Go's `unicode` package satisfies all of these. -/
theorem slugify_idempotent (cls : RuneClass)
    (H0 : alnum cls '-' = false)
    (Hlow : ∀ r, alnum cls r = true →
      alnum cls (cls.toLower r) = true ∧ cls.toLower (cls.toLower r) = cls.toLower r)
    (HT : tableOK cls = true) (s : List Char) :
    Slugify cls (Slugify cls s) = Slugify cls s ∧
      ValidateSlug cls (Slugify cls s) = none := by
  cases hout : slugChars cls true false s with
  | nil =>
    have h1 : Slugify cls s = ['-'] := by simp [Slugify, hout]
    have h2 : Slugify cls ['-'] = ['-'] := by
      simp [Slugify, slugChars_cons, slugChars_nil, H0]
    rw [h1, h2]
    refine ⟨rfl, ?_⟩
    simp [ValidateSlug, h2]
  | cons a out =>
    have hrr := slug_rerun cls H0 Hlow HT s true false false (by simp)
    rw [hout] at hrr
    have h1 : Slugify cls s = a :: out := by simp [Slugify, hout]
    have h2 : Slugify cls (a :: out) = a :: out := by simp [Slugify, hrr]
    rw [h1, h2]
    refine ⟨rfl, ?_⟩
    simp [ValidateSlug, h2]

/-- C10: `Slugify` is total and never returns an empty slug; inputs all of
whose runes contribute nothing (no letter/number, not a separator that is
kept, no `runename` entry) — including the empty string — yield the
single-character slug "-". -/
theorem slugify_nonempty (cls : RuneClass) (s : List Char) :
    Slugify cls s ≠ [] ∧
      ((∀ r ∈ s, alnum cls r = false ∧ r ≠ '/' ∧ r ≠ '=' ∧
          ((r = '-' ∨ r = ',' ∨ r = '.' ∨ r = ' ' ∨ r = '_') ∨ runename r = none)) →
        Slugify cls s = ['-']) := by
  constructor
  · unfold Slugify
    cases h : slugChars cls true false s with
    | nil => simp
    | cons a out => simp
  · intro hall
    have hzero : ∀ (l : List Char) (c e : Bool),
        (∀ r ∈ l, alnum cls r = false ∧ r ≠ '/' ∧ r ≠ '=' ∧
          ((r = '-' ∨ r = ',' ∨ r = '.' ∨ r = ' ' ∨ r = '_') ∨ runename r = none)) →
        slugChars cls c e l = [] := by
      intro l
      induction l with
      | nil => intro c e _; rfl
      | cons r rest ih =>
        intro c e hl
        obtain ⟨h1, h2, h3, h4⟩ := hl r (List.mem_cons_self _ _)
        have hrest := fun x hx => hl x (List.mem_cons_of_mem _ hx)
        rw [slugChars_cons, if_neg (by simp [h1]), if_neg (by simp [h2, h3])]
        rcases h4 with hdash | hnone
        · rw [if_pos (by rcases hdash with h | h | h | h | h <;> simp [h])]
          exact ih c true hrest
        · by_cases hd : (r = '-' || r = ',' || r = '.' || r = ' ' || r = '_') = true
          · rw [if_pos hd]
            exact ih c true hrest
          · rw [if_neg hd]
            simp only [hnone]
            exact ih c true hrest
    unfold Slugify
    rw [hzero s true false hall]
    simp

/-- An explicit rune classification used to instantiate the `Slugify`
theorems on concrete inputs: ASCII lowercase letters, ASCII digits, and
identity lowercasing. -/
def asciiClass : RuneClass where
  isLetter := fun c => decide ('a' ≤ c) && decide (c ≤ 'z')
  isNumber := fun c => decide ('0' ≤ c) && decide (c ≤ '9')
  toLower := fun c => c

set_option maxRecDepth 40000 in
theorem slugify_idempotent_witness :
    Slugify asciiClass (Slugify asciiClass "hello,  world!".data) =
        Slugify asciiClass "hello,  world!".data ∧
      ValidateSlug asciiClass (Slugify asciiClass "hello,  world!".data) = none :=
  slugify_idempotent asciiClass (by decide) (fun r h => ⟨h, rfl⟩) (by decide)
    "hello,  world!".data

set_option maxRecDepth 40000 in
theorem slugify_nonempty_witness :
    Slugify asciiClass ['~', ' '] ≠ [] ∧ Slugify asciiClass ['~', ' '] = ['-'] :=
  ⟨(slugify_nonempty asciiClass ['~', ' ']).1,
    (slugify_nonempty asciiClass ['~', ' ']).2 (by decide)⟩

/-! ## `CreateMapping` (ditaconv mapping construction)

`CreateMapping` iterates the topic corpus, normalizes titles with `titelize`,
assigns identifiers via the external `fedwiki.Slugify` (modelled as the
`slugify` parameter), records clash/missing errors, and then runs the
short-title promotion pass over the `byslug` map.  Topic identity (a Go
pointer into the index) is modelled by the topic's filename; the in-place
mutation of `Title`/`ShortTitle` is modelled by the `store` map from filename
to the topic's current title fields. -/

structure GoTopic where
  filename : String
  title : String
  shortTitle : String
deriving DecidableEq

inductive MapErr
  | clash (title fn other : String)
  | missing (fn : String)
deriving DecidableEq

structure MState where
  store : List (String × (String × String))
  byslug : List (String × String)
  bytopic : List (String × String)
  errors : List MapErr
deriving DecidableEq

def initMState : MState := ⟨[], [], [], []⟩

def primaryStep (slugify : String → String) (st : MState) (t : GoTopic) : MState :=
  let ttl := titelize t.title
  let short := titelize t.shortTitle
  let st1 : MState := { st with store := setk st.store t.filename (ttl, short) }
  let slug := slugify ttl
  match alook slug st1.byslug with
  | some other => { st1 with errors := st1.errors ++ [MapErr.clash ttl t.filename other] }
  | none =>
    if ttl = "" then { st1 with errors := st1.errors ++ [MapErr.missing t.filename] }
    else
      { st1 with byslug := setk st1.byslug slug t.filename,
                 bytopic := setk st1.bytopic t.filename slug }

def primaryPass (slugify : String → String) (ts : List GoTopic) : MState :=
  ts.foldl (primaryStep slugify) initMState

def promoteStep (slugify : String → String) (st : MState) (e : String × String) : MState :=
  match alook e.2 st.store with
  | none => st
  | some (ttl, short) =>
    if short = "" ∨ ttl.utf8ByteSize ≤ short.utf8ByteSize then st
    else
      let slug := slugify short
      match alook slug st.byslug with
      | some _ => st
      | none =>
        { st with store := setk st.store e.2 (short, ""),
                  byslug := setk (erasek e.1 st.byslug) slug e.2,
                  bytopic := setk st.bytopic e.2 slug }

def CreateMapping (slugify : String → String) (ts : List GoTopic) : MState :=
  let st1 := primaryPass slugify ts
  st1.byslug.foldl (promoteStep slugify) st1

def Bij2 (bs bt : List (String × String)) : Prop :=
  (∀ s f, alook s bs = some f → alook f bt = some s) ∧
  (∀ f s, alook f bt = some s → alook s bs = some f)

def Bij (st : MState) : Prop := Bij2 st.byslug st.bytopic

theorem bij2_insert {bs bt : List (String × String)} (hB : Bij2 bs bt) {slug fn : String}
    (h1 : alook slug bs = none) (h2 : alook fn bt = none) :
    Bij2 (setk bs slug fn) (setk bt fn slug) := by
  constructor
  · intro s f hsf
    by_cases hs : s = slug
    · subst hs
      rw [alook_setk_self] at hsf
      obtain rfl : fn = f := by simpa using hsf
      rw [alook_setk_self]
    · rw [alook_setk_ne hs] at hsf
      have hf : f ≠ fn := by
        intro he
        subst he
        rw [hB.1 s f hsf] at h2
        cases h2
      rw [alook_setk_ne hf]
      exact hB.1 s f hsf
  · intro f s hfs
    by_cases hf : f = fn
    · subst hf
      rw [alook_setk_self] at hfs
      obtain rfl : slug = s := by simpa using hfs
      rw [alook_setk_self]
    · rw [alook_setk_ne hf] at hfs
      have hs : s ≠ slug := by
        intro he
        subst he
        rw [hB.2 f s hfs] at h1
        cases h1
      rw [alook_setk_ne hs]
      exact hB.2 f s hfs

def entriesOK (st : MState) (todo : List (String × String)) : Prop :=
  ∀ e ∈ todo, alook e.1 st.byslug = some e.2

def PromInv (st : MState) (todo : List (String × String)) : Prop :=
  Bij st ∧ keysNodup st.byslug ∧ keysNodup st.bytopic ∧ entriesOK st todo ∧
    (todo.map Prod.fst).Nodup ∧ (todo.map Prod.snd).Nodup

theorem promInv_tail {st : MState} {e : String × String} {todo : List (String × String)}
    (h : PromInv st (e :: todo)) : PromInv st todo := by
  obtain ⟨hB, hks, hkt, hE, hK, hV⟩ := h
  refine ⟨hB, hks, hkt, fun x hx => hE x (List.mem_cons_of_mem _ hx), ?_, ?_⟩
  · exact (List.nodup_cons.mp (by simpa using hK)).2
  · exact (List.nodup_cons.mp (by simpa using hV)).2

theorem promoteStep_cases (slugify : String → String) (st : MState) (e : String × String) :
    promoteStep slugify st e = st ∨
    ∃ ttl short, alook e.2 st.store = some (ttl, short) ∧ short ≠ "" ∧
      short.utf8ByteSize < ttl.utf8ByteSize ∧ alook (slugify short) st.byslug = none ∧
      promoteStep slugify st e =
        { st with store := setk st.store e.2 (short, ""),
                  byslug := setk (erasek e.1 st.byslug) (slugify short) e.2,
                  bytopic := setk st.bytopic e.2 (slugify short) } := by
  cases hst : alook e.2 st.store with
  | none =>
    left
    unfold promoteStep
    rw [hst]
  | some p =>
    obtain ⟨ttl, short⟩ := p
    by_cases hc : (short = "" ∨ ttl.utf8ByteSize ≤ short.utf8ByteSize)
    · left
      unfold promoteStep
      rw [hst]
      simp [hc]
    · cases hbs : alook (slugify short) st.byslug with
      | some f =>
        left
        unfold promoteStep
        rw [hst]
        simp [hc, hbs]
      | none =>
        right
        refine ⟨ttl, short, rfl, fun h => hc (Or.inl h),
          Nat.lt_of_not_le fun h => hc (Or.inr h), hbs, ?_⟩
        unfold promoteStep
        rw [hst]
        simp [hc, hbs]

theorem bij2_promote {bs bt : List (String × String)} (hB : Bij2 bs bt)
    {prev fn slug : String}
    (hprev : alook prev bs = some fn) (hslug : alook slug bs = none) :
    Bij2 (setk (erasek prev bs) slug fn) (setk bt fn slug) := by
  constructor
  · intro s f hsf
    by_cases hs : s = slug
    · subst hs
      rw [alook_setk_self] at hsf
      obtain rfl : fn = f := by simpa using hsf
      rw [alook_setk_self]
    · rw [alook_setk_ne hs] at hsf
      by_cases hp : s = prev
      · subst hp
        rw [alook_erasek_self] at hsf
        cases hsf
      · rw [alook_erasek_ne hp] at hsf
        have hffn : f ≠ fn := by
          intro he
          subst he
          have h1 := hB.1 s f hsf
          have h2 := hB.1 prev f hprev
          rw [h1] at h2
          have h3 : s = prev := by simpa using h2
          exact hp h3
        rw [alook_setk_ne hffn]
        exact hB.1 s f hsf
  · intro f s hfs
    by_cases hf : f = fn
    · subst hf
      rw [alook_setk_self] at hfs
      obtain rfl : slug = s := by simpa using hfs
      rw [alook_setk_self]
    · rw [alook_setk_ne hf] at hfs
      have h0 := hB.2 f s hfs
      have hs : s ≠ slug := by
        intro he
        subst he
        rw [h0] at hslug
        cases hslug
      have hp : s ≠ prev := by
        intro he
        subst he
        rw [h0] at hprev
        exact hf (by simpa using hprev)
      rw [alook_setk_ne hs, alook_erasek_ne hp]
      exact h0

theorem prom_step_inv (slugify : String → String) {st : MState} {e : String × String}
    {todo : List (String × String)} (h : PromInv st (e :: todo)) :
    PromInv (promoteStep slugify st e) todo := by
  rcases promoteStep_cases slugify st e with heq | ⟨ttl, short, hst, hne, hlt, hfree, heq⟩
  · rw [heq]
    exact promInv_tail h
  · obtain ⟨hB, hks, hkt, hE, hK, hV⟩ := h
    have hprev : alook e.1 st.byslug = some e.2 := hE e (List.mem_cons_self _ _)
    simp only [List.map_cons, List.nodup_cons] at hK hV
    rw [heq]
    refine ⟨?_, ?_, ?_, ?_, hK.2, hV.2⟩
    · exact bij2_promote hB hprev hfree
    · exact keysNodup_setk _ _ (keysNodup_erasek _ hks)
    · exact keysNodup_setk _ _ hkt
    · intro x hx
      have hx0 : alook x.1 st.byslug = some x.2 := hE x (List.mem_cons_of_mem _ hx)
      have hx1 : x.1 ≠ slugify short := by
        intro hh
        rw [hh, hfree] at hx0
        cases hx0
      have hx2 : x.1 ≠ e.1 := by
        intro hh
        exact hK.1 (hh ▸ List.mem_map.mpr ⟨x, hx, rfl⟩)
      show alook x.1 (setk (erasek e.1 st.byslug) (slugify short) e.2) = some x.2
      rw [alook_setk_ne hx1, alook_erasek_ne hx2]
      exact hx0

theorem prom_fold_inv (slugify : String → String) :
    ∀ (todo : List (String × String)) (st : MState),
      PromInv st todo → PromInv (List.foldl (promoteStep slugify) st todo) [] := by
  intro todo
  induction todo with
  | nil =>
    intro st h
    exact ⟨h.1, h.2.1, h.2.2.1, fun x hx => absurd hx (List.not_mem_nil x), by simp, by simp⟩
  | cons e todo ih =>
    intro st h
    rw [List.foldl_cons]
    exact ih _ (prom_step_inv slugify h)

theorem promoteStep_errors (slugify : String → String) (st : MState) (e : String × String) :
    (promoteStep slugify st e).errors = st.errors := by
  rcases promoteStep_cases slugify st e with heq | ⟨ttl, short, _, _, _, _, heq⟩ <;> rw [heq]

theorem prom_fold_errors (slugify : String → String) :
    ∀ (todo : List (String × String)) (st : MState),
      (List.foldl (promoteStep slugify) st todo).errors = st.errors := by
  intro todo
  induction todo with
  | nil => intro st; rfl
  | cons e todo ih =>
    intro st
    rw [List.foldl_cons, ih, promoteStep_errors]

theorem primaryStep_cases (slugify : String → String) (st : MState) (t : GoTopic) :
    (∃ other, alook (slugify (titelize t.title)) st.byslug = some other ∧
      primaryStep slugify st t =
        { st with store := setk st.store t.filename (titelize t.title, titelize t.shortTitle),
                  errors := st.errors ++ [MapErr.clash (titelize t.title) t.filename other] }) ∨
    (alook (slugify (titelize t.title)) st.byslug = none ∧ titelize t.title = "" ∧
      primaryStep slugify st t =
        { st with store := setk st.store t.filename (titelize t.title, titelize t.shortTitle),
                  errors := st.errors ++ [MapErr.missing t.filename] }) ∨
    (alook (slugify (titelize t.title)) st.byslug = none ∧ titelize t.title ≠ "" ∧
      primaryStep slugify st t =
        { st with store := setk st.store t.filename (titelize t.title, titelize t.shortTitle),
                  byslug := setk st.byslug (slugify (titelize t.title)) t.filename,
                  bytopic := setk st.bytopic t.filename (slugify (titelize t.title)) }) := by
  cases halook : alook (slugify (titelize t.title)) st.byslug with
  | some other =>
    left
    refine ⟨other, rfl, ?_⟩
    unfold primaryStep
    simp [halook]
  | none =>
    right
    by_cases ht : titelize t.title = ""
    · left
      refine ⟨rfl, ht, ?_⟩
      unfold primaryStep
      rw [ht] at halook
      simp [halook, ht]
    · right
      refine ⟨rfl, ht, ?_⟩
      unfold primaryStep
      simp [halook, ht]

theorem primary_inv (slugify : String → String) :
    ∀ (ts : List GoTopic) (st : MState),
      Bij st → keysNodup st.byslug → keysNodup st.bytopic →
      (∀ t ∈ ts, alook t.filename st.bytopic = none) →
      (ts.map GoTopic.filename).Nodup →
      Bij (List.foldl (primaryStep slugify) st ts) ∧
        keysNodup (List.foldl (primaryStep slugify) st ts).byslug ∧
        keysNodup (List.foldl (primaryStep slugify) st ts).bytopic := by
  intro ts
  induction ts with
  | nil =>
    intro st hB hks hkt _ _
    exact ⟨hB, hks, hkt⟩
  | cons t ts ih =>
    intro st hB hks hkt hfresh hnodup
    rw [List.foldl_cons]
    simp only [List.map_cons, List.nodup_cons] at hnodup
    have hfr : ∀ t' ∈ ts, t'.filename ≠ t.filename := by
      intro t' ht' he
      exact hnodup.1 (he ▸ List.mem_map.mpr ⟨t', ht', rfl⟩)
    rcases primaryStep_cases slugify st t with ⟨other, _, heq⟩ | ⟨_, _, heq⟩ | ⟨h1, h2, heq⟩
    · rw [heq]
      exact ih _ hB hks hkt (fun x hx => hfresh x (List.mem_cons_of_mem _ hx)) hnodup.2
    · rw [heq]
      exact ih _ hB hks hkt (fun x hx => hfresh x (List.mem_cons_of_mem _ hx)) hnodup.2
    · rw [heq]
      have h2' : alook t.filename st.bytopic = none := hfresh t (List.mem_cons_self _ _)
      refine ih _ (bij2_insert hB h1 h2') (keysNodup_setk _ _ hks) (keysNodup_setk _ _ hkt)
        ?_ hnodup.2
      intro x hx
      show alook x.filename (setk st.bytopic t.filename (slugify (titelize t.title))) = none
      rw [alook_setk_ne (hfr x hx)]
      exact hfresh x (List.mem_cons_of_mem _ hx)

theorem initMState_inv :
    Bij initMState ∧ keysNodup initMState.byslug ∧ keysNodup initMState.bytopic := by
  refine ⟨?_, ?_, ?_⟩
  · show Bij2 initMState.byslug initMState.bytopic
    exact And.intro (fun _ _ h => by cases h) (fun _ _ h => by cases h)
  · exact List.nodup_nil
  · exact List.nodup_nil

theorem byslug_values_nodup {st : MState} (hB : Bij st) (hk : keysNodup st.byslug) :
    (st.byslug.map Prod.snd).Nodup := by
  have hl : st.byslug.Nodup := List.Nodup.of_map _ hk
  refine List.Nodup.map_on ?_ hl
  intro x hx y hy hxy
  obtain ⟨s1, f1⟩ := x
  obtain ⟨s2, f2⟩ := y
  simp only at hxy
  subst hxy
  have e1 := alook_of_mem_nodup hk hx
  have e2 := alook_of_mem_nodup hk hy
  have b1 := hB.1 s1 f1 e1
  have b2 := hB.1 s2 f1 e2
  rw [b1] at b2
  obtain rfl : s1 = s2 := by simpa using b2
  rfl

/-- C1: the Mapping built by `CreateMapping` is a bijection.  For every pair
`(slug, topic)` in `BySlug`, `ByTopic` maps that topic back to the same slug,
and conversely; in particular no topic has two identifiers and no identifier
maps to two topics.  This holds both after the primary-assignment pass and
after the short-title promotion pass, for any slugifier and any corpus whose
topics have distinct identities (distinct filenames, matching the distinct
`*Topic` pointers of the Go index). -/
theorem createMapping_bijection (slugify : String → String) (ts : List GoTopic)
    (hnd : (ts.map GoTopic.filename).Nodup) :
    Bij (primaryPass slugify ts) ∧ Bij (CreateMapping slugify ts) := by
  obtain ⟨hB0, hks0, hkt0⟩ := initMState_inv
  obtain ⟨hB1, hks1, hkt1⟩ :=
    primary_inv slugify ts initMState hB0 hks0 hkt0 (fun t _ => rfl) hnd
  refine ⟨hB1, ?_⟩
  have hpi : PromInv (primaryPass slugify ts) (primaryPass slugify ts).byslug := by
    refine ⟨hB1, hks1, hkt1, ?_, hks1, byslug_values_nodup hB1 hks1⟩
    intro e he
    obtain ⟨a, b⟩ := e
    exact alook_of_mem_nodup hks1 he
  show Bij (List.foldl (promoteStep slugify) (primaryPass slugify ts)
    (primaryPass slugify ts).byslug)
  exact (prom_fold_inv slugify _ _ hpi).1

theorem createMapping_bijection_witness :
    Bij (primaryPass (fun s => s) [⟨"f1", "a", ""⟩, ⟨"f2", "b", ""⟩]) ∧
      Bij (CreateMapping (fun s => s) [⟨"f1", "a", ""⟩, ⟨"f2", "b", ""⟩]) :=
  createMapping_bijection (fun s => s) [⟨"f1", "a", ""⟩, ⟨"f2", "b", ""⟩] (by decide)

theorem prom_fold_inv_append (slugify : String → String) :
    ∀ (l1 l2 : List (String × String)) (st : MState), PromInv st (l1 ++ l2) →
      PromInv (List.foldl (promoteStep slugify) st l1) l2 := by
  intro l1
  induction l1 with
  | nil => intro l2 st h; exact h
  | cons x l1 ih =>
    intro l2 st h
    rw [List.cons_append] at h
    rw [List.foldl_cons]
    exact ih _ _ (prom_step_inv slugify h)

theorem prom_persist (slugify : String → String) :
    ∀ (todo : List (String × String)) (st : MState) (f : String),
      PromInv st todo → f ∉ todo.map Prod.snd →
      alook f (List.foldl (promoteStep slugify) st todo).bytopic = alook f st.bytopic ∧
      alook f (List.foldl (promoteStep slugify) st todo).store = alook f st.store ∧
      (∀ s, alook s (List.foldl (promoteStep slugify) st todo).byslug = some f ↔
        alook s st.byslug = some f) := by
  intro todo
  induction todo with
  | nil =>
    intro st f _ _
    exact ⟨rfl, rfl, fun s => Iff.rfl⟩
  | cons e todo ih =>
    intro st f hInv hf
    simp only [List.map_cons, List.mem_cons, not_or] at hf
    obtain ⟨hf1, hf2⟩ := hf
    rw [List.foldl_cons]
    have hInv' := prom_step_inv slugify hInv
    rcases promoteStep_cases slugify st e with heq | ⟨ttl, short, hst, hne, hlt, hfree, heq⟩
    · rw [heq] at hInv' ⊢
      exact ih st f hInv' hf2
    · have hprev : alook e.1 st.byslug = some e.2 :=
        hInv.2.2.2.1 e (List.mem_cons_self _ _)
      rw [heq] at hInv' ⊢
      obtain ⟨ht, hs, hby⟩ := ih _ f hInv' hf2
      refine ⟨?_, ?_, ?_⟩
      · rw [ht]
        exact alook_setk_ne hf1 _ _
      · rw [hs]
        exact alook_setk_ne hf1 _ _
      · intro s
        refine (hby s).trans ?_
        show alook s (setk (erasek e.1 st.byslug) (slugify short) e.2) = some f ↔
          alook s st.byslug = some f
        by_cases hs1 : s = slugify short
        · subst hs1
          rw [alook_setk_self, hfree]
          constructor
          · intro h
            obtain rfl : e.2 = f := by simpa using h
            exact absurd rfl hf1
          · intro h
            cases h
        · rw [alook_setk_ne hs1]
          by_cases hs2 : s = e.1
          · subst hs2
            rw [alook_erasek_self, hprev]
            constructor
            · intro h
              cases h
            · intro h
              obtain rfl : e.2 = f := by simpa using h
              exact absurd rfl hf1
          · rw [alook_erasek_ne hs2]

theorem promoteStep_promotes (slugify : String → String) (st : MState)
    (e : String × String) {ttl short : String}
    (hstore : alook e.2 st.store = some (ttl, short)) (hshort : short ≠ "")
    (hlen : short.utf8ByteSize < ttl.utf8ByteSize)
    (hfree : alook (slugify short) st.byslug = none) :
    promoteStep slugify st e =
      { st with store := setk st.store e.2 (short, ""),
                byslug := setk (erasek e.1 st.byslug) (slugify short) e.2,
                bytopic := setk st.bytopic e.2 (slugify short) } := by
  unfold promoteStep
  rw [hstore]
  simp [hshort, Nat.not_le.mpr hlen, hfree]

theorem promoteStep_skips (slugify : String → String) (st : MState)
    (e : String × String) {ttl short f' : String}
    (hstore : alook e.2 st.store = some (ttl, short)) (hshort : short ≠ "")
    (hlen : short.utf8ByteSize < ttl.utf8ByteSize)
    (htaken : alook (slugify short) st.byslug = some f') :
    promoteStep slugify st e = st := by
  unfold promoteStep
  rw [hstore]
  simp [hshort, Nat.not_le.mpr hlen, htaken]

/-- C3: short-title promotion.  Consider a topic registered after the primary
pass, i.e. an entry `e = (prev, fn)` of `byslug`, processed by the promotion
pass at the point where the entries in `done` have already been handled.  If
its current `ShortTitle` is nonempty and strictly shorter (in bytes, as Go's
`len`) than its current `Title`, then: when the short-title-derived identifier
is not already taken at that point, the topic's final identifier equals the
short-title-derived one, its `Title` becomes the former `ShortTitle`,
`ShortTitle` is cleared, and the old identifier entry no longer maps to it;
when the identifier is taken, the topic keeps its original assignment.  In
both cases no error is recorded (the promotion pass never touches the error
list). -/
theorem promotion_correctness (slugify : String → String) (ts : List GoTopic)
    (done : List (String × String)) (e : String × String) (todo : List (String × String))
    (ttl short : String)
    (hnd : (ts.map GoTopic.filename).Nodup)
    (hsplit : (primaryPass slugify ts).byslug = done ++ e :: todo)
    (hstore : alook e.2
      (List.foldl (promoteStep slugify) (primaryPass slugify ts) done).store =
      some (ttl, short))
    (hshort : short ≠ "")
    (hlen : short.utf8ByteSize < ttl.utf8ByteSize) :
    (alook (slugify short)
        (List.foldl (promoteStep slugify) (primaryPass slugify ts) done).byslug = none →
      alook e.2 (CreateMapping slugify ts).bytopic = some (slugify short) ∧
      alook (slugify short) (CreateMapping slugify ts).byslug = some e.2 ∧
      alook e.2 (CreateMapping slugify ts).store = some (short, "") ∧
      alook e.1 (CreateMapping slugify ts).byslug ≠ some e.2 ∧
      (CreateMapping slugify ts).errors = (primaryPass slugify ts).errors) ∧
    (∀ f', alook (slugify short)
        (List.foldl (promoteStep slugify) (primaryPass slugify ts) done).byslug = some f' →
      alook e.2 (CreateMapping slugify ts).bytopic = some e.1 ∧
      alook e.1 (CreateMapping slugify ts).byslug = some e.2 ∧
      (CreateMapping slugify ts).errors = (primaryPass slugify ts).errors) := by
  obtain ⟨hB0, hks0, hkt0⟩ := initMState_inv
  obtain ⟨hB1, hks1, hkt1⟩ :=
    primary_inv slugify ts initMState hB0 hks0 hkt0 (fun t _ => rfl) hnd
  have hpi : PromInv (primaryPass slugify ts) (done ++ e :: todo) := by
    rw [← hsplit]
    refine ⟨hB1, hks1, hkt1, ?_, hks1, byslug_values_nodup hB1 hks1⟩
    intro x hx
    obtain ⟨a, b⟩ := x
    exact alook_of_mem_nodup hks1 hx
  have hMid : PromInv (List.foldl (promoteStep slugify) (primaryPass slugify ts) done)
      (e :: todo) := prom_fold_inv_append slugify done (e :: todo) _ hpi
  have hprevMid : alook e.1
      (List.foldl (promoteStep slugify) (primaryPass slugify ts) done).byslug = some e.2 :=
    hMid.2.2.2.1 e (List.mem_cons_self _ _)
  have hnotin : e.2 ∉ todo.map Prod.snd := by
    have hv := hMid.2.2.2.2.2
    simp only [List.map_cons, List.nodup_cons] at hv
    exact hv.1
  have hCM : CreateMapping slugify ts =
      List.foldl (promoteStep slugify)
        (promoteStep slugify
          (List.foldl (promoteStep slugify) (primaryPass slugify ts) done) e) todo := by
    show List.foldl (promoteStep slugify) (primaryPass slugify ts)
        (primaryPass slugify ts).byslug = _
    rw [hsplit, List.foldl_append, List.foldl_cons]
  have hMidErr : (List.foldl (promoteStep slugify) (primaryPass slugify ts) done).errors =
      (primaryPass slugify ts).errors := prom_fold_errors slugify done _
  constructor
  · intro hfree
    have hstep := promoteStep_promotes slugify
      (List.foldl (promoteStep slugify) (primaryPass slugify ts) done) e
      hstore hshort hlen hfree
    have hInv' := prom_step_inv slugify hMid
    rw [hstep] at hInv' hCM
    obtain ⟨hpt, hps, hpb⟩ := prom_persist slugify todo _ e.2 hInv' hnotin
    rw [hCM]
    have hslug_ne : e.1 ≠ slugify short := by
      intro hh
      rw [← hh, hprevMid] at hfree
      cases hfree
    refine ⟨?_, ?_, ?_, ?_, ?_⟩
    · rw [hpt]
      exact alook_setk_self _ _ _
    · exact (hpb (slugify short)).mpr (by rw [alook_setk_self])
    · rw [hps]
      exact alook_setk_self _ _ _
    · intro hcon
      have := (hpb e.1).mp hcon
      rw [alook_setk_ne hslug_ne, alook_erasek_self] at this
      cases this
    · rw [prom_fold_errors slugify todo _]
      exact hMidErr
  · intro f' htaken
    have hstep := promoteStep_skips slugify
      (List.foldl (promoteStep slugify) (primaryPass slugify ts) done) e
      hstore hshort hlen htaken
    rw [hstep] at hCM
    have hInv' : PromInv (List.foldl (promoteStep slugify) (primaryPass slugify ts) done)
        todo := promInv_tail hMid
    obtain ⟨hpt, hps, hpb⟩ := prom_persist slugify todo _ e.2 hInv' hnotin
    rw [hCM]
    refine ⟨?_, ?_, ?_⟩
    · rw [hpt]
      exact hMid.1.1 e.1 e.2 hprevMid
    · exact (hpb e.1).mpr hprevMid
    · rw [prom_fold_errors slugify todo _]
      exact hMidErr

theorem promotion_correctness_witness :
    alook "f1" (CreateMapping (fun s => s) [⟨"f1", "ab", "a"⟩]).bytopic = some "a" ∧
    alook "a" (CreateMapping (fun s => s) [⟨"f1", "ab", "a"⟩]).byslug = some "f1" ∧
    alook "f1" (CreateMapping (fun s => s) [⟨"f1", "ab", "a"⟩]).store = some ("a", "") ∧
    alook "ab" (CreateMapping (fun s => s) [⟨"f1", "ab", "a"⟩]).byslug ≠ some "f1" ∧
    (CreateMapping (fun s => s) [⟨"f1", "ab", "a"⟩]).errors =
      (primaryPass (fun s => s) [⟨"f1", "ab", "a"⟩]).errors :=
  (promotion_correctness (fun s => s) [⟨"f1", "ab", "a"⟩] [] ("ab", "f1") [] "ab" "a"
    (by decide) (by decide) (by decide) (by decide) (by decide)).1 (by decide)

def firstOwner (slugify : String → String) : List GoTopic → String → Option String
  | [], _ => none
  | t :: ts, s =>
    if titelize t.title ≠ "" ∧ slugify (titelize t.title) = s then some t.filename
    else firstOwner slugify ts s

theorem firstOwner_append (slugify : String → String) :
    ∀ (l1 l2 : List GoTopic) (s : String),
      firstOwner slugify (l1 ++ l2) s =
        (firstOwner slugify l1 s).elim (firstOwner slugify l2 s) some := by
  intro l1
  induction l1 with
  | nil => intro l2 s; rfl
  | cons t l1 ih =>
    intro l2 s
    rw [List.cons_append]
    by_cases hc : titelize t.title ≠ "" ∧ slugify (titelize t.title) = s
    · rw [firstOwner, if_pos hc, firstOwner, if_pos hc]
      rfl
    · rw [firstOwner, if_neg hc, firstOwner, if_neg hc]
      exact ih l2 s

theorem primary_byslug_char (slugify : String → String) :
    ∀ (ts : List GoTopic) (st : MState) (s : String),
      alook s (List.foldl (primaryStep slugify) st ts).byslug =
        (alook s st.byslug).elim (firstOwner slugify ts s) some := by
  intro ts
  induction ts with
  | nil =>
    intro st s
    show alook s st.byslug = (alook s st.byslug).elim (firstOwner slugify [] s) some
    cases alook s st.byslug <;> rfl
  | cons t ts ih =>
    intro st s
    rw [List.foldl_cons, ih]
    rcases primaryStep_cases slugify st t with ⟨other, hsome, heq⟩ | ⟨hnone, hemp, heq⟩ |
      ⟨hnone, hne, heq⟩
    · rw [heq]
      show (alook s st.byslug).elim (firstOwner slugify ts s) some = _
      cases hcur : alook s st.byslug with
      | some f => rfl
      | none =>
        have hcond : ¬(titelize t.title ≠ "" ∧ slugify (titelize t.title) = s) := by
          rintro ⟨_, hc2⟩
          rw [hc2] at hsome
          rw [hsome] at hcur
          cases hcur
        rw [firstOwner, if_neg hcond]
    · rw [heq]
      show (alook s st.byslug).elim (firstOwner slugify ts s) some = _
      have hcond : ¬(titelize t.title ≠ "" ∧ slugify (titelize t.title) = s) := by
        rintro ⟨hc1, _⟩
        exact hc1 hemp
      rw [firstOwner, if_neg hcond]
    · rw [heq]
      by_cases hs : s = slugify (titelize t.title)
      · subst hs
        show (alook _ (setk st.byslug _ t.filename)).elim _ some = _
        rw [alook_setk_self]
        rw [hnone]
        rw [firstOwner, if_pos ⟨hne, rfl⟩]
        rfl
      · show (alook s (setk st.byslug _ t.filename)).elim _ some = _
        rw [alook_setk_ne hs]
        have hcond : ¬(titelize t.title ≠ "" ∧ slugify (titelize t.title) = s) := by
          rintro ⟨_, hc2⟩
          exact hs hc2.symm
        rw [firstOwner, if_neg hcond]

theorem primary_errors_mono (slugify : String → String) :
    ∀ (ts : List GoTopic) (st : MState) (x : MapErr),
      x ∈ st.errors → x ∈ (List.foldl (primaryStep slugify) st ts).errors := by
  intro ts
  induction ts with
  | nil => intro st x h; exact h
  | cons t ts ih =>
    intro st x h
    rw [List.foldl_cons]
    rcases primaryStep_cases slugify st t with ⟨other, _, heq⟩ | ⟨_, _, heq⟩ | ⟨_, _, heq⟩ <;>
      rw [heq] <;> apply ih <;>
      first
        | exact List.mem_append_left _ h
        | exact h

def NotMapped (f : String) (st : MState) : Prop :=
  alook f st.bytopic = none ∧ ∀ s, alook s st.byslug ≠ some f

theorem primary_notmapped (slugify : String → String) :
    ∀ (ts : List GoTopic) (st : MState) (f : String),
      (∀ t ∈ ts, t.filename ≠ f) → NotMapped f st →
      NotMapped f (List.foldl (primaryStep slugify) st ts) := by
  intro ts
  induction ts with
  | nil => intro st f _ h; exact h
  | cons t ts ih =>
    intro st f hts h
    rw [List.foldl_cons]
    have hfn : t.filename ≠ f := hts t (List.mem_cons_self _ _)
    have hts' : ∀ x ∈ ts, x.filename ≠ f := fun x hx => hts x (List.mem_cons_of_mem _ hx)
    rcases primaryStep_cases slugify st t with ⟨other, _, heq⟩ | ⟨_, _, heq⟩ |
      ⟨hnone, hne, heq⟩
    · rw [heq]
      exact ih _ f hts' h
    · rw [heq]
      exact ih _ f hts' h
    · rw [heq]
      refine ih _ f hts' ⟨?_, ?_⟩
      · show alook f (setk st.bytopic t.filename _) = none
        rw [alook_setk_ne (Ne.symm hfn)]
        exact h.1
      · intro s hcon
        show False
        by_cases hs : s = slugify (titelize t.title)
        · subst hs
          rw [alook_setk_self] at hcon
          exact hfn (by simpa using hcon)
        · rw [alook_setk_ne hs] at hcon
          exact h.2 s hcon

theorem prom_notmapped (slugify : String → String) :
    ∀ (todo : List (String × String)) (st : MState) (f : String),
      PromInv st todo → NotMapped f st →
      NotMapped f (List.foldl (promoteStep slugify) st todo) := by
  intro todo
  induction todo with
  | nil => intro st f _ h; exact h
  | cons e todo ih =>
    intro st f hInv h
    rw [List.foldl_cons]
    have hInv' := prom_step_inv slugify hInv
    rcases promoteStep_cases slugify st e with heq | ⟨ttl, short, hst, hne, hlt, hfree, heq⟩
    · rw [heq] at hInv' ⊢
      exact ih _ f hInv' h
    · have hprev : alook e.1 st.byslug = some e.2 := hInv.2.2.2.1 e (List.mem_cons_self _ _)
      have he2 : e.2 ≠ f := by
        intro hh
        exact h.2 e.1 (hh ▸ hprev)
      have he1slug : e.1 ≠ slugify short := by
        intro hh
        rw [← hh, hprev] at hfree
        cases hfree
      rw [heq] at hInv' ⊢
      refine ih _ f hInv' ⟨?_, ?_⟩
      · show alook f (setk st.bytopic e.2 _) = none
        rw [alook_setk_ne (Ne.symm he2)]
        exact h.1
      · intro s hcon
        show False
        by_cases hs : s = slugify short
        · subst hs
          rw [show alook (slugify short) (setk (erasek e.1 st.byslug) (slugify short) e.2) =
            some e.2 from alook_setk_self _ _ _] at hcon
          exact he2 (by simpa using hcon)
        · rw [show alook s (setk (erasek e.1 st.byslug) (slugify short) e.2) =
            alook s (erasek e.1 st.byslug) from alook_setk_ne hs _ _] at hcon
          by_cases hp : s = e.1
          · subst hp
            rw [alook_erasek_self] at hcon
            cases hcon
          · rw [alook_erasek_ne hp] at hcon
            exact h.2 s hcon

theorem prom_bytopic_isSome (slugify : String → String) :
    ∀ (todo : List (String × String)) (st : MState) (f : String),
      (alook f st.bytopic).isSome = true →
      (alook f (List.foldl (promoteStep slugify) st todo).bytopic).isSome = true := by
  intro todo
  induction todo with
  | nil => intro st f h; exact h
  | cons e todo ih =>
    intro st f h
    rw [List.foldl_cons]
    rcases promoteStep_cases slugify st e with heq | ⟨ttl, short, _, _, _, _, heq⟩
    · rw [heq]
      exact ih _ f h
    · rw [heq]
      refine ih _ f ?_
      show (alook f (setk st.bytopic e.2 (slugify short))).isSome = true
      by_cases hf : f = e.2
      · subst hf
        rw [alook_setk_self]
        rfl
      · rw [alook_setk_ne hf]
        exact h

theorem promInv_full (slugify : String → String) (ts : List GoTopic)
    (hnd : (ts.map GoTopic.filename).Nodup) :
    PromInv (primaryPass slugify ts) (primaryPass slugify ts).byslug ∧
      Bij (primaryPass slugify ts) := by
  obtain ⟨hB0, hks0, hkt0⟩ := initMState_inv
  obtain ⟨hB1, hks1, hkt1⟩ :=
    primary_inv slugify ts initMState hB0 hks0 hkt0 (fun t _ => rfl) hnd
  refine ⟨⟨hB1, hks1, hkt1, ?_, hks1, byslug_values_nodup hB1 hks1⟩, hB1⟩
  intro e he
  obtain ⟨x, y⟩ := e
  exact alook_of_mem_nodup hks1 he

theorem createMapping_errors (slugify : String → String) (ts : List GoTopic) :
    (CreateMapping slugify ts).errors = (primaryPass slugify ts).errors := by
  show (List.foldl (promoteStep slugify) (primaryPass slugify ts)
    (primaryPass slugify ts).byslug).errors = _
  exact prom_fold_errors slugify _ _

theorem createMapping_notmapped (slugify : String → String) (ts : List GoTopic) (f : String)
    (hnd : (ts.map GoTopic.filename).Nodup)
    (h : NotMapped f (primaryPass slugify ts)) :
    NotMapped f (CreateMapping slugify ts) := by
  show NotMapped f (List.foldl (promoteStep slugify) (primaryPass slugify ts)
    (primaryPass slugify ts).byslug)
  exact prom_notmapped slugify _ _ f (promInv_full slugify ts hnd).1 h

/-- C4 (amended): clash handling.  Among the topics whose normalized title is
nonempty and slugifies to a given identifier, the first one in iteration
order is registered under that identifier by the primary pass; every later
one receives a "clashing title" error naming its own file and the first's
file, is excluded from both `BySlug` and `ByTopic` of the final Mapping, and
construction continues (the winner still holds an identifier in the final
Mapping, though the promotion pass may have moved it to a shorter one,
so the winner need not sit under the clashing identifier in the final map). -/
theorem clash_handling (slugify : String → String) (pre : List GoTopic) (a : GoTopic)
    (mid : List GoTopic) (b : GoTopic) (post : List GoTopic)
    (hnd : ((pre ++ a :: mid ++ b :: post).map GoTopic.filename).Nodup)
    (hta : titelize a.title ≠ "") (htb : titelize b.title ≠ "")
    (hslug : slugify (titelize b.title) = slugify (titelize a.title))
    (hfirst : firstOwner slugify pre (slugify (titelize a.title)) = none) :
    alook (slugify (titelize a.title))
        (primaryPass slugify (pre ++ a :: mid ++ b :: post)).byslug = some a.filename ∧
    MapErr.clash (titelize b.title) b.filename a.filename ∈
      (CreateMapping slugify (pre ++ a :: mid ++ b :: post)).errors ∧
    alook b.filename (CreateMapping slugify (pre ++ a :: mid ++ b :: post)).bytopic
      = none ∧
    (∀ s, alook s (CreateMapping slugify (pre ++ a :: mid ++ b :: post)).byslug ≠
      some b.filename) ∧
    (alook a.filename
      (CreateMapping slugify (pre ++ a :: mid ++ b :: post)).bytopic).isSome = true := by
  -- the registered owner after the whole primary pass
  have h1 : alook (slugify (titelize a.title))
      (primaryPass slugify (pre ++ a :: mid ++ b :: post)).byslug = some a.filename := by
    show alook (slugify (titelize a.title))
      (List.foldl (primaryStep slugify) initMState (pre ++ a :: mid ++ b :: post)).byslug
      = some a.filename
    rw [primary_byslug_char]
    show firstOwner slugify (pre ++ a :: mid ++ b :: post) (slugify (titelize a.title))
      = some a.filename
    rw [firstOwner_append, firstOwner_append, hfirst]
    show (firstOwner slugify (a :: mid) (slugify (titelize a.title))).elim
      (firstOwner slugify (b :: post) (slugify (titelize a.title))) some = some a.filename
    rw [firstOwner, if_pos ⟨hta, rfl⟩]
    rfl
  -- the owner at the point where b is processed
  have h2 : alook (slugify (titelize a.title))
      (List.foldl (primaryStep slugify) initMState (pre ++ a :: mid)).byslug
      = some a.filename := by
    rw [primary_byslug_char]
    show firstOwner slugify (pre ++ a :: mid) (slugify (titelize a.title))
      = some a.filename
    rw [firstOwner_append, hfirst]
    show firstOwner slugify (a :: mid) (slugify (titelize a.title)) = some a.filename
    rw [firstOwner, if_pos ⟨hta, rfl⟩]
  have hndsplit := hnd
  rw [List.map_append, List.nodup_append] at hndsplit
  obtain ⟨hnd1, hnd2, hdisj⟩ := hndsplit
  have hb_not_earlier : ∀ t ∈ pre ++ a :: mid, t.filename ≠ b.filename := by
    intro t ht he
    exact hdisj (List.mem_map.mpr ⟨t, ht, rfl⟩)
      (by rw [he]; exact List.mem_cons_self _ _)
  have hb_not_post : ∀ t ∈ post, t.filename ≠ b.filename := by
    simp only [List.map_cons, List.nodup_cons] at hnd2
    intro t ht he
    exact hnd2.1 (by rw [← he]; exact List.mem_map.mpr ⟨t, ht, rfl⟩)
  -- b's own step is the clash branch
  have hbstep := primaryStep_cases slugify
    (List.foldl (primaryStep slugify) initMState (pre ++ a :: mid)) b
  rw [hslug, h2] at hbstep
  rcases hbstep with ⟨other, hsome, heqb⟩ | ⟨hnone, _, _⟩ | ⟨hnone, _, _⟩
  · obtain rfl : other = a.filename := by
      simpa using hsome.symm
    -- error membership
    have herr : MapErr.clash (titelize b.title) b.filename a.filename ∈
        (primaryStep slugify
          (List.foldl (primaryStep slugify) initMState (pre ++ a :: mid)) b).errors := by
      rw [heqb]
      exact List.mem_append_right _ (List.mem_singleton.mpr rfl)
    have hfold : primaryPass slugify (pre ++ a :: mid ++ b :: post) =
        List.foldl (primaryStep slugify)
          (primaryStep slugify
            (List.foldl (primaryStep slugify) initMState (pre ++ a :: mid)) b) post := by
      show List.foldl (primaryStep slugify) initMState (pre ++ a :: mid ++ b :: post) = _
      rw [List.foldl_append, List.foldl_cons]
    have herr1 : MapErr.clash (titelize b.title) b.filename a.filename ∈
        (primaryPass slugify (pre ++ a :: mid ++ b :: post)).errors := by
      rw [hfold]
      exact primary_errors_mono slugify post _ _ herr
    have hnm : NotMapped b.filename (primaryPass slugify (pre ++ a :: mid ++ b :: post)) := by
      rw [hfold]
      refine primary_notmapped slugify post _ _ hb_not_post ?_
      have hnm1 : NotMapped b.filename
          (List.foldl (primaryStep slugify) initMState (pre ++ a :: mid)) :=
        primary_notmapped slugify (pre ++ a :: mid) initMState b.filename hb_not_earlier
          ⟨rfl, fun s h => by cases h⟩
      rw [heqb]
      exact hnm1
    have hfinalnm : NotMapped b.filename
        (CreateMapping slugify (pre ++ a :: mid ++ b :: post)) :=
      createMapping_notmapped slugify _ _ hnd hnm
    have hapresent : (alook a.filename
        (CreateMapping slugify (pre ++ a :: mid ++ b :: post)).bytopic).isSome = true := by
      have hB1 := (promInv_full slugify (pre ++ a :: mid ++ b :: post) hnd).2
      have := hB1.1 _ _ h1
      show (alook a.filename (List.foldl (promoteStep slugify)
        (primaryPass slugify (pre ++ a :: mid ++ b :: post))
        (primaryPass slugify (pre ++ a :: mid ++ b :: post)).byslug).bytopic).isSome = true
      refine prom_bytopic_isSome slugify _ _ _ ?_
      rw [this]
      rfl
    refine ⟨h1, ?_, hfinalnm.1, hfinalnm.2, hapresent⟩
    rw [createMapping_errors]
    exact herr1
  · cases hnone
  · cases hnone

/-- C4 counterexample: with the identity slugifier and the corpus
`[{f1, title "ab", short "a"}, {f2, title "ab"}]`, both topics' normalized
titles slugify to "ab" and f2 clashes with f1 as the claim says — but the
promotion pass then moves f1 to the shorter identifier "a", so NEITHER of the
two topics is present in the final Mapping under the clashing identifier
"ab", contradicting the claim that exactly one of them — the first to be
registered — is present under that identifier. -/
theorem clash_handling_counterexample :
    alook "ab" (CreateMapping (fun s => s)
      [⟨"f1", "ab", "a"⟩, ⟨"f2", "ab", ""⟩]).byslug = none ∧
    alook "a" (CreateMapping (fun s => s)
      [⟨"f1", "ab", "a"⟩, ⟨"f2", "ab", ""⟩]).byslug = some "f1" ∧
    MapErr.clash "ab" "f2" "f1" ∈
      (CreateMapping (fun s => s) [⟨"f1", "ab", "a"⟩, ⟨"f2", "ab", ""⟩]).errors := by
  refine ⟨by decide, by decide, by decide⟩

theorem clash_handling_witness :
    alook "ab" (primaryPass (fun s => s)
      [⟨"f1", "ab", ""⟩, ⟨"f2", "ab", ""⟩]).byslug = some "f1" ∧
    MapErr.clash "ab" "f2" "f1" ∈
      (CreateMapping (fun s => s) [⟨"f1", "ab", ""⟩, ⟨"f2", "ab", ""⟩]).errors ∧
    alook "f2" (CreateMapping (fun s => s)
      [⟨"f1", "ab", ""⟩, ⟨"f2", "ab", ""⟩]).bytopic = none ∧
    (∀ s, alook s (CreateMapping (fun s => s)
      [⟨"f1", "ab", ""⟩, ⟨"f2", "ab", ""⟩]).byslug ≠ some "f2") ∧
    (alook "f1" (CreateMapping (fun s => s)
      [⟨"f1", "ab", ""⟩, ⟨"f2", "ab", ""⟩]).bytopic).isSome = true := by
  have h := clash_handling (fun s => s) [] ⟨"f1", "ab", ""⟩ [] ⟨"f2", "ab", ""⟩ []
    (by decide) (by decide) (by decide) rfl (by decide)
  have hteq : titelize "ab" = "ab" := by decide
  simp only [hteq] at h
  exact h

/-- C8 (amended): missing titles.  Every topic whose normalized title is the
empty string is excluded from both `BySlug` and `ByTopic` of the returned
Mapping.  A "title missing" error naming its file is recorded provided the
identifier derived from the empty title is not already registered to an
earlier topic; if it is, the clash check (which precedes the missing-title
check in the code) records a "clashing title" error for the topic instead. -/
theorem missing_title (slugify : String → String) (pre : List GoTopic) (t : GoTopic)
    (post : List GoTopic)
    (hnd : ((pre ++ t :: post).map GoTopic.filename).Nodup)
    (hempty : titelize t.title = "") :
    alook t.filename (CreateMapping slugify (pre ++ t :: post)).bytopic = none ∧
    (∀ s, alook s (CreateMapping slugify (pre ++ t :: post)).byslug ≠ some t.filename) ∧
    (alook (slugify "") (List.foldl (primaryStep slugify) initMState pre).byslug = none →
      MapErr.missing t.filename ∈ (CreateMapping slugify (pre ++ t :: post)).errors) ∧
    (∀ other,
      alook (slugify "") (List.foldl (primaryStep slugify) initMState pre).byslug
        = some other →
      MapErr.clash "" t.filename other ∈
        (CreateMapping slugify (pre ++ t :: post)).errors) := by
  have hndsplit := hnd
  rw [List.map_append, List.nodup_append] at hndsplit
  obtain ⟨hnd1, hnd2, hdisj⟩ := hndsplit
  have ht_not_pre : ∀ x ∈ pre, x.filename ≠ t.filename := by
    intro x hx he
    exact hdisj (List.mem_map.mpr ⟨x, hx, rfl⟩)
      (by rw [he]; exact List.mem_cons_self _ _)
  have ht_not_post : ∀ x ∈ post, x.filename ≠ t.filename := by
    simp only [List.map_cons, List.nodup_cons] at hnd2
    intro x hx he
    exact hnd2.1 (by rw [← he]; exact List.mem_map.mpr ⟨x, hx, rfl⟩)
  have hfold : primaryPass slugify (pre ++ t :: post) =
      List.foldl (primaryStep slugify)
        (primaryStep slugify (List.foldl (primaryStep slugify) initMState pre) t)
        post := by
    show List.foldl (primaryStep slugify) initMState (pre ++ t :: post) = _
    rw [List.foldl_append, List.foldl_cons]
  have hstept := primaryStep_cases slugify
    (List.foldl (primaryStep slugify) initMState pre) t
  rw [hempty] at hstept
  have hnm1 : NotMapped t.filename (List.foldl (primaryStep slugify) initMState pre) :=
    primary_notmapped slugify pre initMState t.filename ht_not_pre
      ⟨rfl, fun s h => by cases h⟩
  have hexcl : NotMapped t.filename (CreateMapping slugify (pre ++ t :: post)) := by
    refine createMapping_notmapped slugify _ _ hnd ?_
    rw [hfold]
    refine primary_notmapped slugify post _ _ ht_not_post ?_
    rcases hstept with ⟨other, hsome, heq⟩ | ⟨hnone, _, heq⟩ | ⟨_, hne, _⟩
    · rw [heq]
      exact hnm1
    · rw [heq]
      exact hnm1
    · exact absurd rfl hne
  refine ⟨hexcl.1, hexcl.2, ?_, ?_⟩
  · intro hfree
    rcases hstept with ⟨other, hsome, heq⟩ | ⟨hnone, _, heq⟩ | ⟨_, hne, _⟩
    · rw [hsome] at hfree
      cases hfree
    · rw [createMapping_errors, hfold]
      refine primary_errors_mono slugify post _ _ ?_
      rw [heq]
      exact List.mem_append_right _ (List.mem_singleton.mpr rfl)
    · exact absurd rfl hne
  · intro other2 htaken
    rcases hstept with ⟨other, hsome, heq⟩ | ⟨hnone, _, heq⟩ | ⟨_, hne, _⟩
    · obtain rfl : other = other2 := by
        rw [hsome] at htaken
        simpa using htaken
      rw [createMapping_errors, hfold]
      refine primary_errors_mono slugify post _ _ ?_
      rw [heq]
      exact List.mem_append_right _ (List.mem_singleton.mpr rfl)
    · rw [hnone] at htaken
      cases htaken
    · exact absurd rfl hne

/-- C8 counterexample: with a constant slugifier, the topic f2 has an empty
normalized title, yet no "title missing" error is recorded for it — its
(empty-title) identifier already belongs to f1, and the clash check precedes
the missing-title check, so a "clashing title" error is recorded instead.
The topic is still excluded from both maps. -/
theorem missing_title_counterexample :
    titelize "" = "" ∧
    MapErr.missing "f2" ∉
      (CreateMapping (fun _ => "x") [⟨"f1", "a", ""⟩, ⟨"f2", "", ""⟩]).errors ∧
    (CreateMapping (fun _ => "x") [⟨"f1", "a", ""⟩, ⟨"f2", "", ""⟩]).errors =
      [MapErr.clash "" "f2" "f1"] ∧
    alook "f2" (CreateMapping (fun _ => "x")
      [⟨"f1", "a", ""⟩, ⟨"f2", "", ""⟩]).bytopic = none := by
  refine ⟨by decide, by decide, by decide, by decide⟩

theorem missing_title_witness :
    alook "f1" (CreateMapping (fun s => s) [⟨"f1", "", ""⟩]).bytopic = none ∧
    MapErr.missing "f1" ∈ (CreateMapping (fun s => s) [⟨"f1", "", ""⟩]).errors := by
  have h := missing_title (fun s => s) [] ⟨"f1", "", ""⟩ [] (by decide) (by decide)
  exact ⟨h.1, h.2.2.1 (by decide)⟩

/-! ## Link resolution (`module/dita/convert.go`)

`ResolveLinkInfo` is transcribed from the source.  Its collaborators from the
external `ditaconvert` package (`SplitLink`, `CanonicalPath`, the index, the
`ByTopic` mapping and `ExtractTitle`) are fields of a `LinkEnv` parameter.
Go's `path.Dir`/`path.Join`/`path.Clean` are pure, fully documented stdlib
functions and are implemented below following the documented Plan 9 cleaning
algorithm. -/

def splitOnSlash : List Char → List (List Char)
  | [] => [[]]
  | c :: rest =>
    if c = '/' then [] :: splitOnSlash rest
    else
      match splitOnSlash rest with
      | [] => [[c]]
      | g :: gs => (c :: g) :: gs

def interSlash : List (List Char) → List Char
  | [] => []
  | [g] => g
  | g :: gs => g ++ '/' :: interSlash gs

def goPathClean (p : String) : String :=
  if p = "" then "."
  else
    let rooted := p.data.head? = some '/'
    let comps := (splitOnSlash p.data).foldl (fun acc c =>
      if c = [] ∨ c = ['.'] then acc
      else if c = ['.', '.'] then
        match acc with
        | [] => if rooted then [] else [['.', '.']]
        | top :: rest => if top = ['.', '.'] then c :: top :: rest else rest
      else c :: acc) []
    let core := interSlash comps.reverse
    if rooted then ⟨'/' :: core⟩
    else if core = [] then "." else ⟨core⟩

def goPathDir (p : String) : String :=
  match splitOnSlash p.data with
  | [] => goPathClean ""
  | [_] => goPathClean ""
  | parts => goPathClean ⟨interSlash parts.dropLast ++ ['/']⟩

def goPathJoin (a b : String) : String :=
  if a = "" ∧ b = "" then ""
  else if a = "" then goPathClean b
  else if b = "" then goPathClean a
  else goPathClean ⟨a.data ++ '/' :: b.data⟩

def listHasPrefix : List Char → List Char → Bool
  | _, [] => true
  | [], _ :: _ => false
  | c :: s, q :: qs => if c = q then listHasPrefix s qs else false

def strHasPrefix (s pre : String) : Bool :=
  listHasPrefix s.data pre.data

def splitAtHash : List Char → List Char × List Char
  | [] => ([], [])
  | '#' :: rest => ([], rest)
  | c :: rest =>
    let ps := splitAtHash rest
    (c :: ps.1, ps.2)

/-- Modelled from the spec: `ditaconvert.SplitLink` (not part of this
repository) splits a reference into its path part and its optional
in-document selector (fragment identifier). -/
def specSplitLink (url : String) : String × String :=
  let ps := splitAtHash url.data
  (⟨ps.1⟩, ⟨ps.2⟩)

/-- Modelled from the spec: `ditaconvert.CanonicalPath` (not part of this
repository) normalizes a path before Index lookup; after `path.Join` has
already cleaned the relative reference, the canonical form is the path
itself. -/
def specCanonicalPath (p : String) : String := p

structure DTopic where
  path : String
  title : String
  raw : String
  original : Option String
deriving DecidableEq

inductive LinkErr
  | notFound (name url selector : String)
  | extractFail (name url selector msg : String)
deriving DecidableEq

structure LinkEnv where
  splitLink : String → String × String
  canonicalPath : String → String
  topics : List (String × DTopic)
  byTopic : String → Option String
  extractTitle : String → String → Except String String

structure LinkResult where
  href : String
  title : String
  synopsis : String
  internal : Bool
  errors : List LinkErr
deriving DecidableEq

def ResolveLinkInfo (env : LinkEnv) (decodingPath : String) (url0 : String) : LinkResult :=
  if strHasPrefix url0 "http:" || strHasPrefix url0 "https:" then
    ⟨url0, "", "", false, []⟩
  else
    let ps := env.splitLink url0
    let url := ps.1
    let selector := ps.2
    if url = "" then ⟨"#" ++ selector, "", "", true, []⟩
    else
      let name := if url ≠ "" then goPathJoin (goPathDir decodingPath) url else decodingPath
      match alook (env.canonicalPath name) env.topics with
      | none => ⟨"", "", "", false, [LinkErr.notFound name url selector]⟩
      | some topic =>
        let te :=
          if selector ≠ "" then
            match env.extractTitle topic.raw selector with
            | Except.ok t => (t, ([] : List LinkErr))
            | Except.error m => ("", [LinkErr.extractFail name url selector m])
          else ("", [])
        let tsyn :=
          if te.1 = "" then
            match topic.original with
            | some sd => (topic.title, if selector = "" then sd else "")
            | none => (te.1, "")
          else (te.1, "")
        match env.byTopic topic.path with
        | none => ⟨"", tsyn.1, tsyn.2, false, te.2⟩
        | some slug =>
          if selector ≠ "" then ⟨slug ++ "#" ++ selector, tsyn.1, tsyn.2, true, te.2⟩
          else ⟨slug, tsyn.1, tsyn.2, true, te.2⟩

/-- C6: a scheme-qualified (absolute web, `http:`/`https:`) reference passes
through `ResolveLinkInfo` unchanged as the href, with empty title, empty
synopsis, `internal = false`, and no diagnostic recorded; neither the Index
nor the Mapping is consulted. -/
theorem resolve_absolute_passthrough (env : LinkEnv) (decodingPath url : String)
    (h : strHasPrefix url "http:" = true ∨ strHasPrefix url "https:" = true) :
    ResolveLinkInfo env decodingPath url = ⟨url, "", "", false, []⟩ := by
  unfold ResolveLinkInfo
  rcases h with h | h <;> simp [h]

theorem resolve_absolute_passthrough_witness :
    ResolveLinkInfo
        ⟨specSplitLink, specCanonicalPath, [], fun _ => none,
          fun _ _ => Except.error "none"⟩ "sub/b.xml" "http://example.com" =
      ⟨"http://example.com", "", "", false, []⟩ :=
  resolve_absolute_passthrough _ "sub/b.xml" "http://example.com" (Or.inl (by decide))

/-- C5: for a non-scheme-qualified reference whose split path part is
nonempty, the path is resolved relative to the directory of the topic being
converted (`path.Join (path.Dir decodingPath)`), canonicalized, and looked up
in the Index; when the lookup succeeds and the referenced topic has an
identifier in `ByTopic`, the returned href is that identifier with `#` and
the selector appended when a selector was present, and `internal = true`. -/
theorem resolve_internal_link (env : LinkEnv) (decodingPath url0 p sel : String)
    (topic : DTopic) (slug : String)
    (hweb1 : strHasPrefix url0 "http:" = false)
    (hweb2 : strHasPrefix url0 "https:" = false)
    (hsplit : env.splitLink url0 = (p, sel))
    (hp : p ≠ "")
    (hlook : alook (env.canonicalPath (goPathJoin (goPathDir decodingPath) p))
      env.topics = some topic)
    (hslug : env.byTopic topic.path = some slug) :
    (ResolveLinkInfo env decodingPath url0).href =
      slug ++ (if sel = "" then "" else "#" ++ sel) ∧
    (ResolveLinkInfo env decodingPath url0).internal = true := by
  unfold ResolveLinkInfo
  rw [hweb1, hweb2]
  simp only [Bool.or_self, Bool.false_eq_true, if_neg (fun h => h : ¬False), hsplit]
  simp only [if_neg hp, hp, ne_eq, not_false_eq_true, if_pos, hlook, hslug]
  by_cases hsel : sel = ""
  · subst hsel
    simp
  · simp only [hsel, ne_eq, not_false_eq_true, if_pos, if_neg hsel]
    cases env.extractTitle topic.raw sel <;> cases topic.original <;>
      simp [hsel, String.append_assoc]

def exampleEnv : LinkEnv where
  splitLink := specSplitLink
  canonicalPath := specCanonicalPath
  topics := [("a.xml", ⟨"a.xml", "Alpha", "<topic/>", some "About alpha"⟩),
    ("sub/b.xml", ⟨"sub/b.xml", "Beta", "<topic/>", some "About beta"⟩)]
  byTopic := fun q =>
    if q = "a.xml" then some "alpha"
    else if q = "sub/b.xml" then some "beta"
    else none
  extractTitle := fun _ _ => Except.ok "Intro"

theorem resolve_internal_link_witness :
    (ResolveLinkInfo exampleEnv "sub/b.xml" "../a.xml#intro").href = "alpha#intro" ∧
    (ResolveLinkInfo exampleEnv "sub/b.xml" "../a.xml#intro").internal = true := by
  have h := resolve_internal_link exampleEnv "sub/b.xml" "../a.xml#intro" "../a.xml" "intro"
    ⟨"a.xml", "Alpha", "<topic/>", some "About alpha"⟩ "alpha"
    (by decide) (by decide) (by decide) (by decide) (by decide) (by decide)
  refine ⟨?_, h.2⟩
  rw [h.1]
  decide

/-! ## `Convert` (module/dita/convert.go)

`Convert` builds the page header from the topic, runs the streaming
conversion (`context.Run()`, external `ditaconvert` machinery modelled as the
`runResult` parameter: either a fatal error or the produced output plus the
collected non-fatal diagnostics), and only on success appends the converted
fragment and the related-links block to the page story. -/

structure KPage where
  slug : String
  title : String
  modified : String
  synopsis : String
  story : List String
deriving DecidableEq

def Convert (slug title modified synopsis : String)
    (runResult : Except String (String × List String)) (relatedLinks : String) :
    KPage × List String × Option String :=
  let page : KPage := ⟨slug, title, modified, synopsis, []⟩
  match runResult with
  | Except.error e => (page, [], some e)
  | Except.ok r => ({ page with story := page.story ++ [r.1, relatedLinks] }, r.2, none)

/-- C7: when the streaming run of a topic's token stream fails (for example
on an unmatched end tag), `Convert` returns the fatal error separately from
the (empty) diagnostics list and appends no story content to the returned
page: the page carries only the topic header fields and an empty story. -/
theorem convert_fatal (slug title modified synopsis relatedLinks : String)
    (runResult : Except String (String × List String)) (e : String)
    (h : runResult = Except.error e) :
    Convert slug title modified synopsis runResult relatedLinks =
      (⟨slug, title, modified, synopsis, []⟩, [], some e) := by
  unfold Convert
  rw [h]

theorem convert_fatal_witness :
    Convert "s" "t" "m" "sy" (Except.error "unexpected end tag") "links" =
      (⟨"s", "t", "m", "sy", []⟩, [], some "unexpected end tag") :=
  convert_fatal "s" "t" "m" "sy" "links" (Except.error "unexpected end tag")
    "unexpected end tag" rfl
